import Mathlib

/-!
Verification of engconverter's TextFileXmlStream (src/engconverter/textfilexmlstream.cpp).

The reader is modelled as a shallow embedding over the token-stream interface
that the XML tokenizer (QXmlStreamReader) presents to this code: the reader
state is the current token, the list of not-yet-read tokens, and the list of
error messages sent to the logger so far.  The byte channel (QIODevice) and
the lexing itself are out of scope, as the specification states; a parse
starts from a token list with current token NoToken, which is what a fresh
QXmlStreamReader reports before the first readNext call.
-/

/-- Tokens of the XML tokenizer interface (QXmlStreamReader::TokenType), with
the payloads this code reads: element names, attribute lists, character data,
and the error message of an Invalid token. -/
inductive Token where
  | noToken
  | startDocument
  | endDocument
  | startElement (name : String) (attrs : List (String × String))
  | endElement (name : String)
  | characters (text : String)
  | comment
  | dtd
  | entityReference (text : String)
  | processingInstruction
  | invalid (msg : String)
deriving DecidableEq

/-- Reader state: the current token (QXmlStreamReader keeps the last token
read), the tokens not yet read, and the messages reported to the logger. -/
structure St where
  cur : Token
  rest : List Token
  log : List String
deriving DecidableEq

/-- One string group (TextGroup, modelled from the spec: an integer id and an
ordered sequence of strings; textgroup.cpp is an out-of-scope collaborator). -/
structure TextGroup where
  id : Int
  strings : List String
deriving DecidableEq

/-- TextGroup::size, the number of strings, returned as int. -/
def TextGroup.size (g : TextGroup) : Int := g.strings.length

/-- TextGroup::add, appending a string at the end. -/
def TextGroup.add (g : TextGroup) (s : String) : TextGroup :=
  { g with strings := g.strings ++ [s] }

/-- The in-memory document (TextFile, modelled from the spec: name defaults to
empty, indexWithCounts defaults to true, groups in insertion order;
textfile.cpp is an out-of-scope collaborator). -/
structure TextFile where
  name : String
  indexWithCounts : Bool
  groups : List TextGroup
deriving DecidableEq

/-- A default-constructed TextFile, per the data-model defaults. -/
def emptyTextFile : TextFile := ⟨"", true, []⟩

/-- Test xml.isStartElement() && xml.name() == tag on the current token. -/
def isStartElementNamed (t : Token) (tag : String) : Bool :=
  match t with
  | .startElement n _ => n == tag
  | _ => false

/-- Test xml.isEndElement() && xml.name() == tag on the current token. -/
def isEndElementNamed (t : Token) (tag : String) : Bool :=
  match t with
  | .endElement n => n == tag
  | _ => false

/-- xml.attributes() of the current token (empty off a start element). -/
def Token.attributes : Token → List (String × String)
  | .startElement _ a => a
  | _ => []

/-- QXmlStreamReader::isStartElement on the current token. -/
def Token.isStart : Token → Bool
  | .startElement _ _ => true
  | _ => false

/-- QXmlStreamAttributes::hasAttribute for the qualified name. -/
def hasAttribute (attrs : List (String × String)) (name : String) : Bool :=
  (attrs.find? (fun p => p.1 == name)).isSome

/-- QXmlStreamAttributes::value(...).toString(): the value of the first
attribute with the given name, or the empty string when absent (the null
QStringRef of an absent attribute converts to an empty QString). -/
def attributeValue (attrs : List (String × String)) (name : String) : String :=
  ((attrs.find? (fun p => p.1 == name)).map Prod.snd).getD ""

/-- Append one message to the log (Logger::error). -/
def logError (s : St) (msg : String) : St :=
  { s with log := s.log ++ [msg] }

/-! QString helpers used by the source: QString::arg place-marker substitution
and decimal integer conversion (QString::number / QString::toInt, base 10).
QString::arg(a) replaces every occurrence of the lowest-numbered place marker
(of the markers appearing in this file, only %1) by a; when the format string
holds no place marker the string is returned unchanged.  This last case is hit
by the format string "Invalid XML: %s" at textfilexmlstream.cpp:82, where %s
is not a Qt place marker. -/

/-- Check whether the marker %m occurs in the character list. -/
def hasMarker (m : Char) : List Char → Bool
  | '%' :: c :: rest => if c == m then true else hasMarker m (c :: rest)
  | _ :: rest => hasMarker m rest
  | [] => false

/-- Replace every occurrence of %1 by v (no rescanning of v). -/
def substMarker1 (v : List Char) : List Char → List Char
  | '%' :: '1' :: rest => v ++ substMarker1 v rest
  | c :: rest => c :: substMarker1 v rest
  | [] => []

/-- Replace every occurrence of %1 by v1 and of %2 by v2. -/
def substMarker2 (v1 v2 : List Char) : List Char → List Char
  | '%' :: '1' :: rest => v1 ++ substMarker2 v1 v2 rest
  | '%' :: '2' :: rest => v2 ++ substMarker2 v1 v2 rest
  | c :: rest => c :: substMarker2 v1 v2 rest
  | [] => []

/-- QString::arg(v) for the format strings of this file: substitute %1 when
present, otherwise return the format unchanged. -/
def qarg (fmt v : String) : String :=
  if hasMarker '1' fmt.data then ⟨substMarker1 v.data fmt.data⟩ else fmt

/-- QString::arg(v1, v2) for a format string holding %1 and %2. -/
def qarg2 (fmt v1 v2 : String) : String :=
  ⟨substMarker2 v1.data v2.data fmt.data⟩

/-- Decimal digit characters. -/
def digitChar : Nat → Char
  | 0 => '0' | 1 => '1' | 2 => '2' | 3 => '3' | 4 => '4'
  | 5 => '5' | 6 => '6' | 7 => '7' | 8 => '8' | _ => '9'

/-- Digits of a natural number, most significant first; fuel-driven recursion
on the value divided by ten, with any fuel above the value sufficing. -/
def natToDigitsAux : Nat → Nat → List Char
  | 0, _ => []
  | fuel + 1, n =>
    if n < 10 then [digitChar n]
    else natToDigitsAux fuel (n / 10) ++ [digitChar (n % 10)]

/-- QString::number for a non-negative value. -/
def natToString (n : Nat) : String := ⟨natToDigitsAux (n + 1) n⟩

/-- QString::number(int): decimal digits with a leading minus sign when
negative. -/
def intToString (i : Int) : String :=
  if i < 0 then ⟨'-' :: natToDigitsAux (i.natAbs + 1) i.natAbs⟩
  else natToString i.natAbs

/-- Accumulate decimal digits left to right; any non-digit fails. -/
def parseDigitsGo (acc : Nat) : List Char → Option Nat
  | [] => some acc
  | c :: cs => if c.isDigit then parseDigitsGo (acc * 10 + (c.toNat - 48)) cs else none

/-- Parse a non-empty all-digit character list as a natural number. -/
def parseNatDigits : List Char → Option Nat
  | [] => none
  | c :: cs => parseDigitsGo 0 (c :: cs)

/-- QString::toInt (base 10): an optional sign followed by at least one
decimal digit; anything else fails (ok = false, in which case the C++ call
also yields value 0, which this code never uses). -/
def qToInt (s : String) : Option Int :=
  match s.data with
  | [] => none
  | c :: cs =>
    if c == '-' then (parseNatDigits cs).map (fun n => -(Int.ofNat n))
    else if c == '+' then (parseNatDigits cs).map (fun n => Int.ofNat n)
    else (parseNatDigits (c :: cs)).map (fun n => Int.ofNat n)

/-- Facts about the ten digit characters. -/
theorem digitChar_spec : ∀ d : Nat, d < 10 → (digitChar d).isDigit = true
    ∧ ((digitChar d).toNat - 48) = d
    ∧ (digitChar d == '-') = false ∧ (digitChar d == '+') = false := by decide

/-- Digit accumulation over an appended list works in two stages. -/
theorem parseDigitsGo_append (xs ys : List Char) : ∀ acc : Nat,
    parseDigitsGo acc (xs ++ ys)
      = match parseDigitsGo acc xs with
        | some a => parseDigitsGo a ys
        | none => none := by
  induction xs with
  | nil => intro acc; simp [parseDigitsGo]
  | cons c cs ih =>
    intro acc
    simp only [List.cons_append, parseDigitsGo]
    split
    · exact ih _
    · rfl

/-- Parsing the produced digits of n recovers n (relative to an accumulator). -/
theorem parseDigitsGo_natToDigitsAux : ∀ (fuel n acc : Nat), n < fuel →
    parseDigitsGo acc (natToDigitsAux fuel n)
      = some (acc * 10 ^ (natToDigitsAux fuel n).length + n) := by
  intro fuel
  induction fuel with
  | zero => intro n acc h; omega
  | succ fuel ih =>
    intro n acc h
    by_cases h10 : n < 10
    · have hd := digitChar_spec n h10
      simp [natToDigitsAux, h10, parseDigitsGo, hd.1, hd.2.1]
    · have hn : n / 10 < fuel := by omega
      simp only [natToDigitsAux, h10, if_false]
      rw [parseDigitsGo_append, ih (n / 10) acc hn]
      have hd := digitChar_spec (n % 10) (by omega)
      simp only [parseDigitsGo, hd.1, if_true, hd.2.1, List.length_append,
        List.length_singleton]
      congr 1
      rw [pow_succ]
      have hstep : (acc * 10 ^ (natToDigitsAux fuel (n / 10)).length + n / 10) * 10 + n % 10
          = acc * (10 ^ (natToDigitsAux fuel (n / 10)).length * 10) + (n / 10 * 10 + n % 10) := by
        ring
      rw [hstep]
      omega

/-- The digit list of n is never empty when the fuel covers n. -/
theorem natToDigitsAux_ne_nil (fuel n : Nat) (h : n < fuel) :
    natToDigitsAux fuel n ≠ [] := by
  cases fuel with
  | zero => omega
  | succ fuel =>
    simp only [natToDigitsAux]
    split
    · simp
    · intro hc
      have := List.append_eq_nil.mp hc
      simp at this

/-- The first produced digit character is a decimal digit. -/
theorem natToDigitsAux_head_digit : ∀ (fuel n : Nat) (c : Char) (cs : List Char),
    n < fuel → natToDigitsAux fuel n = c :: cs → c.isDigit = true := by
  intro fuel
  induction fuel with
  | zero => intro n c cs h; omega
  | succ fuel ih =>
    intro n c cs h heq
    by_cases h10 : n < 10
    · simp only [natToDigitsAux, h10, if_true] at heq
      injection heq with h1 h2
      rw [← h1]
      exact (digitChar_spec n h10).1
    · simp only [natToDigitsAux, h10, if_false] at heq
      have hn : n / 10 < fuel := by omega
      cases hrec : natToDigitsAux fuel (n / 10) with
      | nil => exact absurd hrec (natToDigitsAux_ne_nil fuel (n / 10) hn)
      | cons r rs =>
        rw [hrec] at heq
        simp only [List.cons_append] at heq
        injection heq with h1 h2
        exact h1 ▸ ih (n / 10) r rs hn hrec

/-- A digit character is neither a minus nor a plus sign. -/
theorem isDigit_ne_sign (c : Char) (h : c.isDigit = true) :
    (c == '-') = false ∧ (c == '+') = false := by
  constructor
  · rw [beq_eq_false_iff_ne]
    intro hc
    subst hc
    exact absurd h (by decide)
  · rw [beq_eq_false_iff_ne]
    intro hc
    subst hc
    exact absurd h (by decide)

/-- Parsing the digit list of n yields n. -/
theorem parseNatDigits_natToDigits (n : Nat) :
    parseNatDigits (natToDigitsAux (n + 1) n) = some n := by
  have h := parseDigitsGo_natToDigitsAux (n + 1) n 0 (by omega)
  cases hcs : natToDigitsAux (n + 1) n with
  | nil => exact absurd hcs (natToDigitsAux_ne_nil (n + 1) n (by omega))
  | cons c cs =>
    rw [hcs] at h
    simpa [parseNatDigits] using h

/-- QString::toInt is a left inverse of QString::number. -/
theorem qToInt_intToString (i : Int) : qToInt (intToString i) = some i := by
  unfold intToString
  split
  · rename_i hneg
    show (parseNatDigits (natToDigitsAux (i.natAbs + 1) i.natAbs)).map
        (fun n => -(Int.ofNat n)) = some i
    rw [parseNatDigits_natToDigits]
    show some (-(Int.ofNat i.natAbs)) = some i
    congr 1
    rw [Int.ofNat_eq_coe]
    omega
  · rename_i hneg
    unfold natToString
    cases hcs : natToDigitsAux (i.natAbs + 1) i.natAbs with
    | nil => exact absurd hcs (natToDigitsAux_ne_nil _ _ (by omega))
    | cons c cs =>
      have hdig := natToDigitsAux_head_digit (i.natAbs + 1) i.natAbs c cs (by omega) hcs
      have hsign := isDigit_ne_sign c hdig
      show (if (c == '-') = true then (parseNatDigits cs).map (fun n => -(Int.ofNat n))
        else if (c == '+') = true then (parseNatDigits cs).map (fun n => Int.ofNat n)
        else (parseNatDigits (c :: cs)).map (fun n => Int.ofNat n)) = some i
      rw [if_neg (by simp [hsign.1]), if_neg (by simp [hsign.2]), ← hcs,
        parseNatDigits_natToDigits]
      show some (Int.ofNat i.natAbs) = some i
      congr 1
      rw [Int.ofNat_eq_coe]
      omega

set_option maxRecDepth 10000 in
/-- The logged message of an out-of-order string id names the group id. -/
theorem qarg_msg_order (v : String) :
    qarg "Strings in group %1 are not ordered properly" v
      = "Strings in group " ++ v ++ " are not ordered properly" := by
  apply String.ext
  show substMarker1 v.data ("Strings in group %1 are not ordered properly").data = _
  simp [substMarker1]

set_option maxRecDepth 10000 in
/-- The logged message of an unparseable group id names the offending text. -/
theorem qarg_msg_group_int (v : String) :
    qarg "Group ID is not an integer: %1" v = "Group ID is not an integer: " ++ v := by
  apply String.ext
  show substMarker1 v.data ("Group ID is not an integer: %1").data = _
  simp [substMarker1]

set_option maxRecDepth 10000 in
/-- The logged message of an unparseable string id names the offending text. -/
theorem qarg_msg_string_int (v : String) :
    qarg "String ID is not an integer: %1" v = "String ID is not an integer: " ++ v := by
  apply String.ext
  show substMarker1 v.data ("String ID is not an integer: %1").data = _
  simp [substMarker1]

set_option maxRecDepth 10000 in
/-- The logged message of a missing close tag names the tag. -/
theorem qarg_msg_close (v : String) :
    qarg "Invalid XML: end element </%1> not found" v
      = "Invalid XML: end element </" ++ v ++ "> not found" := by
  apply String.ext
  show substMarker1 v.data ("Invalid XML: end element </%1> not found").data = _
  simp [substMarker1]

set_option maxRecDepth 10000 in
/-- The logged message of a tag mismatch names both tags. -/
theorem qarg2_msg_expected (t n : String) :
    qarg2 "Invalid XML: expected tag <%1>, got <%2>" t n
      = "Invalid XML: expected tag <" ++ t ++ ">, got <" ++ n ++ ">" := by
  apply String.ext
  show substMarker2 t.data n.data ("Invalid XML: expected tag <%1>, got <%2>").data = _
  simp [substMarker2]

/-- Because %s is not a Qt place marker, QString::arg leaves the malformed-XML
format string unchanged: the tokenizer message v is dropped. -/
theorem qarg_msg_invalid (v : String) : qarg "Invalid XML: %s" v = "Invalid XML: %s" := rfl

namespace TextFileXmlStream

/-- Loop of TextFileXmlStream::readOpenTag (textfilexmlstream.cpp:69-97):
read tokens while not at end; skip StartDocument, Comment, DTD, Characters,
EntityReference, ProcessingInstruction and NoToken; stop at Invalid (logged),
EndDocument and EndElement (silent), and StartElement (matched against the
wanted tag); falling off the loop logs unexpected end of file. -/
def readOpenTagAux (tag : String) : Token → List Token → List String → Bool × St
  | cur, [], log => (false, ⟨cur, [], log ++ ["Invalid XML: unexpected end of file"]⟩)
  | _, t :: ts, log =>
    match t with
    | .startDocument | .comment | .dtd | .characters _ | .entityReference _
    | .processingInstruction | .noToken => readOpenTagAux tag t ts log
    | .invalid msg => (false, ⟨t, ts, log ++ [qarg "Invalid XML: %s" msg]⟩)
    | .endDocument => (false, ⟨t, ts, log⟩)
    | .endElement _ => (false, ⟨t, ts, log⟩)
    | .startElement n _ =>
      if n == tag then (true, ⟨t, ts, log⟩)
      else (false, ⟨t, ts, log ++ [qarg2 "Invalid XML: expected tag <%1>, got <%2>" tag n]⟩)

/-- TextFileXmlStream::readOpenTag: succeed at once when the current token is
a start element with the wanted name, otherwise scan forward. -/
def readOpenTag (tag : String) (s : St) : Bool × St :=
  if isStartElementNamed s.cur tag then (true, s)
  else readOpenTagAux tag s.cur s.rest s.log

/-- Loop of TextFileXmlStream::readCloseTag (textfilexmlstream.cpp:107-114):
read tokens while not at end, stopping only at an end element with the wanted
name; falling off the loop logs that the end element was not found. -/
def readCloseTagAux (tag : String) : Token → List Token → List String → Bool × St
  | cur, [], log =>
    (false, ⟨cur, [], log ++ [qarg "Invalid XML: end element </%1> not found" tag]⟩)
  | _, t :: ts, log =>
    if isEndElementNamed t tag then (true, ⟨t, ts, log⟩)
    else readCloseTagAux tag t ts log

/-- TextFileXmlStream::readCloseTag: succeed at once when the current token is
an end element with the wanted name, otherwise scan forward. -/
def readCloseTag (tag : String) (s : St) : Bool × St :=
  if isEndElementNamed s.cur tag then (true, s)
  else readCloseTagAux tag s.cur s.rest s.log

/-- Loop of QXmlStreamReader::readElementText with the default
ErrorOnUnexpectedElement behaviour: concatenate Characters and
EntityReference text, skip ProcessingInstruction and Comment, return at the
matching EndElement; any other token (or running out of input) raises an
error, after which the reader reports atEnd, modelled by an Invalid current
token with no tokens left. -/
def readElementTextAux (acc : String) : List Token → String × Token × List Token
  | [] => (acc, .invalid "Premature end of document.", [])
  | t :: ts =>
    match t with
    | .characters text => readElementTextAux (acc ++ text) ts
    | .entityReference text => readElementTextAux (acc ++ text) ts
    | .processingInstruction => readElementTextAux acc ts
    | .comment => readElementTextAux acc ts
    | .endElement n => (acc, .endElement n, ts)
    | _ => (acc, .invalid "Expected character data.", [])

/-- QXmlStreamReader::readElementText: on a start element, read the enclosed
text; on any other current token, return the empty string without reading. -/
def readElementText (s : St) : String × St :=
  if s.cur.isStart then
    match readElementTextAux "" s.rest with
    | (text, c, r) => (text, ⟨c, r, s.log⟩)
  else ("", s)

/-- The open-tag scan never grows the unread token list. -/
theorem readOpenTagAux_rest_le (tag : String) :
    ∀ (rest : List Token) (cur : Token) (log : List String),
      ((readOpenTagAux tag cur rest log).2).rest.length ≤ rest.length := by
  intro rest
  induction rest with
  | nil => intro cur log; simp [readOpenTagAux]
  | cons t ts ih =>
    intro cur log
    cases t <;> simp only [readOpenTagAux, List.length_cons] <;>
      first
        | exact Nat.le_succ_of_le (ih _ _)
        | (split <;> simp)
        | simp

/-- The open-tag scan consumes at least one token when any are left. -/
theorem readOpenTagAux_rest_lt (tag : String) :
    ∀ (rest : List Token) (cur : Token) (log : List String), rest ≠ [] →
      ((readOpenTagAux tag cur rest log).2).rest.length < rest.length := by
  intro rest
  induction rest with
  | nil => intro cur log h; exact absurd rfl h
  | cons t ts ih =>
    intro cur log _
    cases t <;> simp only [readOpenTagAux, List.length_cons] <;>
      first
        | (cases ts with
            | nil => simp [readOpenTagAux]
            | cons u us => exact Nat.lt_succ_of_lt (ih _ _ (by simp)))
        | (split <;> simp)
        | simp

theorem readOpenTag_rest_le (tag : String) (s : St) :
    ((readOpenTag tag s).2).rest.length ≤ s.rest.length := by
  unfold readOpenTag
  split
  · simp
  · exact readOpenTagAux_rest_le tag s.rest s.cur s.log

/-- When the current token does not already match, a successful open-tag
search strictly consumes input. -/
theorem readOpenTag_true_lt (tag : String) (s : St) (s' : St)
    (him : isStartElementNamed s.cur tag = false)
    (h : readOpenTag tag s = (true, s')) :
    s'.rest.length < s.rest.length := by
  unfold readOpenTag at h
  rw [him] at h
  simp only [Bool.false_eq_true, if_false] at h
  have hne : s.rest ≠ [] := by
    intro hnil
    rw [hnil] at h
    simp [readOpenTagAux] at h
  have := readOpenTagAux_rest_lt tag s.rest s.cur s.log hne
  rw [h] at this
  exact this

/-- The close-tag scan never grows the unread token list. -/
theorem readCloseTagAux_rest_le (tag : String) :
    ∀ (rest : List Token) (cur : Token) (log : List String),
      ((readCloseTagAux tag cur rest log).2).rest.length ≤ rest.length := by
  intro rest
  induction rest with
  | nil => intro cur log; simp [readCloseTagAux]
  | cons t ts ih =>
    intro cur log
    simp only [readCloseTagAux, List.length_cons]
    split
    · simp
    · exact Nat.le_succ_of_le (ih _ _)

theorem readCloseTag_rest_le (tag : String) (s : St) :
    ((readCloseTag tag s).2).rest.length ≤ s.rest.length := by
  unfold readCloseTag
  split
  · simp
  · exact readCloseTagAux_rest_le tag s.rest s.cur s.log

/-- With no tokens left, the close-tag scan leaves the current token and the
empty token list in place. -/
theorem readCloseTag_nil (tag : String) (s : St) (h : s.rest = []) :
    ((readCloseTag tag s).2).cur = s.cur ∧ ((readCloseTag tag s).2).rest = [] := by
  unfold readCloseTag
  split
  · exact ⟨rfl, h⟩
  · rw [h]; simp [readCloseTagAux]

/-- Reading element text never grows the unread token list. -/
theorem readElementTextAux_rest_le :
    ∀ (rest : List Token) (acc : String),
      ((readElementTextAux acc rest).2.2).length ≤ rest.length := by
  intro rest
  induction rest with
  | nil => intro acc; simp [readElementTextAux]
  | cons t ts ih =>
    intro acc
    cases t <;> simp only [readElementTextAux, List.length_cons] <;>
      first
        | exact Nat.le_succ_of_le (ih _)
        | simp

/-- Reading element text consumes at least one token when any are left. -/
theorem readElementTextAux_rest_lt :
    ∀ (rest : List Token) (acc : String), rest ≠ [] →
      ((readElementTextAux acc rest).2.2).length < rest.length := by
  intro rest
  induction rest with
  | nil => intro acc h; exact absurd rfl h
  | cons t ts ih =>
    intro acc _
    cases t <;> simp only [readElementTextAux, List.length_cons] <;>
      first
        | (cases ts with
            | nil => simp [readElementTextAux]
            | cons u us => exact Nat.lt_succ_of_lt (ih _ (by simp)))
        | simp

theorem readElementText_rest_le (s : St) :
    ((readElementText s).2).rest.length ≤ s.rest.length := by
  unfold readElementText
  split
  · exact readElementTextAux_rest_le s.rest ""
  · simp

theorem readElementText_rest_lt (s : St) (hs : s.cur.isStart = true)
    (hne : s.rest ≠ []) :
    ((readElementText s).2).rest.length < s.rest.length := by
  unfold readElementText
  rw [hs]
  simp only [if_true]
  exact readElementTextAux_rest_lt s.rest "" hne

/-- A start element with the right name is a start element. -/
theorem isStartElementNamed_isStart (t : Token) (tag : String)
    (h : isStartElementNamed t tag = true) : t.isStart = true := by
  cases t <;> simp [isStartElementNamed, Token.isStart] at h ⊢

/-- After reading element text from a start element with nothing left to
read, the reader is in the error state. -/
theorem readElementText_nil_cur (s : St) (hs : s.cur.isStart = true)
    (h : s.rest = []) :
    ((readElementText s).2).cur = Token.invalid "Premature end of document."
      ∧ ((readElementText s).2).rest = [] := by
  unfold readElementText
  rw [hs, h]
  simp [readElementTextAux]

/-- A token satisfying isStartElementNamed is that start element. -/
theorem isStartElementNamed_eq (t : Token) (tag : String)
    (h : isStartElementNamed t tag = true) :
    ∃ a, t = Token.startElement tag a := by
  cases t <;> simp [isStartElementNamed] at h
  case startElement n a => exact ⟨a, by rw [h]⟩

/-- When the current token does not already match, the open-tag search
strictly consumes input whenever any is left, whatever its outcome. -/
theorem readOpenTag_rest_lt (tag : String) (s : St)
    (him : isStartElementNamed s.cur tag = false) (hne : s.rest ≠ []) :
    ((readOpenTag tag s).2).rest.length < s.rest.length := by
  unfold readOpenTag
  rw [him]
  simp only [Bool.false_eq_true, if_false]
  exact readOpenTagAux_rest_lt tag s.rest s.cur s.log hne

/-- Termination measure decrease for the string loop of readGroup: a full
iteration (matched open tag, element text, close tag) shrinks the measure
counting two per unread token plus one when the current token is an unread
string start element. -/
theorem readGroupLoop_dec (s s₁ : St)
    (h : readOpenTag "string" s = (true, s₁)) :
    2 * ((readCloseTag "string" (readElementText s₁).2).2).rest.length
        + (if isStartElementNamed ((readCloseTag "string" (readElementText s₁).2).2).cur "string"
            then 1 else 0)
      < 2 * s.rest.length + (if isStartElementNamed s.cur "string" then 1 else 0) := by
  by_cases him : isStartElementNamed s.cur "string" = true
  · have hs₁ : s = s₁ := by
      unfold readOpenTag at h
      rw [him] at h
      simpa using h
    subst hs₁
    have hstart : s.cur.isStart = true := isStartElementNamed_isStart _ _ him
    by_cases hr : s.rest = []
    · have h1 := readElementText_nil_cur s hstart hr
      have h2 := readCloseTag_nil "string" (readElementText s).2 h1.2
      rw [h2.1, h2.2, h1.1, hr, him]
      simp [isStartElementNamed]
    · have h1 := readElementText_rest_lt s hstart hr
      have h2 := readCloseTag_rest_le "string" (readElementText s).2
      rw [him]
      have hb : (if isStartElementNamed ((readCloseTag "string" (readElementText s).2).2).cur
          "string" then 1 else 0) ≤ 1 := by split <;> simp
      omega
  · have him' : isStartElementNamed s.cur "string" = false := by simpa using him
    have h1 := readOpenTag_true_lt "string" s s₁ him' h
    have h2 := readElementText_rest_le s₁
    have h3 := readCloseTag_rest_le "string" (readElementText s₁).2
    rw [him']
    have hb : (if isStartElementNamed ((readCloseTag "string" (readElementText s₁).2).2).cur
        "string" then 1 else 0) ≤ 1 := by split <;> simp
    omega

/-- While loop of TextFileXmlStream::readGroup (textfilexmlstream.cpp:132-146):
while a string open tag is found, require an integer id equal to the group
size, then append the element text and consume the close tag, ignoring its
result.  Reading the element text is a single xml.readElementText() call in
the source; the model is pure, so its repeated mention denotes that one
result.  The first component is false exactly when the loop body returned
out of readGroup with an error. -/
def readGroupLoop (gid : Int) (g : TextGroup) (s : St) : Bool × TextGroup × St :=
  match h : readOpenTag "string" s with
  | (false, s₁) => (true, g, s₁)
  | (true, s₁) =>
    match qToInt (attributeValue s₁.cur.attributes "id") with
    | none =>
      (false, g, logError s₁
        (qarg "String ID is not an integer: %1" (attributeValue s₁.cur.attributes "id")))
    | some textId =>
      if textId ≠ g.size then
        (false, g, logError s₁
          (qarg "Strings in group %1 are not ordered properly" (intToString gid)))
      else
        readGroupLoop gid (g.add (readElementText s₁).1)
          (readCloseTag "string" (readElementText s₁).2).2
termination_by 2 * s.rest.length + (if isStartElementNamed s.cur "string" then 1 else 0)
decreasing_by exact readGroupLoop_dec s s₁ h

/-- Unfolding: no string open tag found ends the loop successfully. -/
theorem readGroupLoop_open_false (gid : Int) (g : TextGroup) (s s₁ : St)
    (h : readOpenTag "string" s = (false, s₁)) :
    readGroupLoop gid g s = (true, g, s₁) := by
  rw [readGroupLoop.eq_def]
  split
  · rename_i s' heq
    rw [h] at heq
    simp only [Prod.mk.injEq, true_and] at heq
    rw [heq]
  · rename_i s' heq
    rw [h] at heq
    simp at heq

/-- Unfolding: a string whose id does not parse as an integer fails. -/
theorem readGroupLoop_id_none (gid : Int) (g : TextGroup) (s s₁ : St)
    (h : readOpenTag "string" s = (true, s₁))
    (hq : qToInt (attributeValue s₁.cur.attributes "id") = none) :
    readGroupLoop gid g s = (false, g, logError s₁
      (qarg "String ID is not an integer: %1" (attributeValue s₁.cur.attributes "id"))) := by
  rw [readGroupLoop.eq_def]
  split
  · rename_i s' heq
    rw [h] at heq
    simp at heq
  · rename_i s' heq
    rw [h] at heq
    simp only [Prod.mk.injEq, true_and] at heq
    subst heq
    rw [hq]

/-- Unfolding: a string id different from the current group size fails. -/
theorem readGroupLoop_order (gid : Int) (g : TextGroup) (s s₁ : St) (textId : Int)
    (h : readOpenTag "string" s = (true, s₁))
    (hq : qToInt (attributeValue s₁.cur.attributes "id") = some textId)
    (hne : textId ≠ g.size) :
    readGroupLoop gid g s = (false, g, logError s₁
      (qarg "Strings in group %1 are not ordered properly" (intToString gid))) := by
  rw [readGroupLoop.eq_def]
  split
  · rename_i s' heq
    rw [h] at heq
    simp at heq
  · rename_i s' heq
    rw [h] at heq
    simp only [Prod.mk.injEq, true_and] at heq
    subst heq
    rw [hq]
    simp [hne]

/-- Unfolding: a string id equal to the current group size appends the
element text and continues the loop after the close tag. -/
theorem readGroupLoop_step (gid : Int) (g : TextGroup) (s s₁ : St) (textId : Int)
    (h : readOpenTag "string" s = (true, s₁))
    (hq : qToInt (attributeValue s₁.cur.attributes "id") = some textId)
    (heq : textId = g.size) :
    readGroupLoop gid g s = readGroupLoop gid (g.add (readElementText s₁).1)
      (readCloseTag "string" (readElementText s₁).2).2 := by
  rw [readGroupLoop.eq_def]
  split
  · rename_i s' heq2
    rw [h] at heq2
    simp at heq2
  · rename_i s' heq2
    rw [h] at heq2
    simp only [Prod.mk.injEq, true_and] at heq2
    subst heq2
    rw [hq]
    simp [heq]

/-- The string loop never grows the unread token list. -/
theorem readGroupLoop_rest_le (gid : Int) (g : TextGroup) (s : St) :
    ((readGroupLoop gid g s).2.2).rest.length ≤ s.rest.length := by
  refine readGroupLoop.induct gid
    (fun g s => ((readGroupLoop gid g s).2.2).rest.length ≤ s.rest.length) ?_ ?_ ?_ ?_ g s
  · intro g s s₁ h
    rw [readGroupLoop_open_false gid g s s₁ h]
    have := readOpenTag_rest_le "string" s
    rw [h] at this
    simpa using this
  · intro g s s₁ h hq
    rw [readGroupLoop_id_none gid g s s₁ h hq]
    have := readOpenTag_rest_le "string" s
    rw [h] at this
    simpa [logError] using this
  · intro g s s₁ h textId hq hne
    rw [readGroupLoop_order gid g s s₁ textId h hq hne]
    have := readOpenTag_rest_le "string" s
    rw [h] at this
    simpa [logError] using this
  · intro g s s₁ h textId hq hne ih
    rw [readGroupLoop_step gid g s s₁ textId h hq (not_not.mp hne)]
    have h1 := readOpenTag_rest_le "string" s
    rw [h] at h1
    simp only at h1
    have h2 := readElementText_rest_le s₁
    have h3 := readCloseTag_rest_le "string" (readElementText s₁).2
    omega

/-- With no tokens left and no matching current token, the string loop ends
at once, logging nothing more than the end-of-file message of the open-tag
scan that terminated it (which the caller then ignores). -/
theorem readGroupLoop_nil (gid : Int) (g : TextGroup) (s : St)
    (him : isStartElementNamed s.cur "string" = false) (hr : s.rest = []) :
    readGroupLoop gid g s
      = (true, g, ⟨s.cur, [], s.log ++ ["Invalid XML: unexpected end of file"]⟩) := by
  apply readGroupLoop_open_false
  unfold readOpenTag
  rw [him, hr]
  simp [readOpenTagAux]

/-- When the current token is not a string start element and tokens remain,
the string loop strictly consumes input, whatever its outcome. -/
theorem readGroupLoop_rest_lt (gid : Int) (g : TextGroup) (s : St)
    (him : isStartElementNamed s.cur "string" = false) (hne : s.rest ≠ []) :
    ((readGroupLoop gid g s).2.2).rest.length < s.rest.length := by
  rcases hb : readOpenTag "string" s with ⟨b, s₁⟩
  have hlt : s₁.rest.length < s.rest.length := by
    have := readOpenTag_rest_lt "string" s him hne
    rw [hb] at this
    simpa using this
  cases b
  · rw [readGroupLoop_open_false gid g s s₁ hb]
    simpa using hlt
  · rcases hq : qToInt (attributeValue s₁.cur.attributes "id") with _ | textId
    · rw [readGroupLoop_id_none gid g s s₁ hb hq]
      simpa [logError] using hlt
    · by_cases hsz : textId = g.size
      · rw [readGroupLoop_step gid g s s₁ textId hb hq hsz]
        have h2 := readElementText_rest_le s₁
        have h3 := readCloseTag_rest_le "string" (readElementText s₁).2
        have h4 := readGroupLoop_rest_le gid (g.add (readElementText s₁).1)
          ((readCloseTag "string" (readElementText s₁).2).2)
        omega
      · rw [readGroupLoop_order gid g s s₁ textId hb hq hsz]
        simpa [logError] using hlt

/-- TextFileXmlStream::readGroup (textfilexmlstream.cpp:117-149): require an
integer id attribute on the current group start element, run the string
loop, and append the built group to the document on success. -/
def readGroup (file : TextFile) (s : St) : Bool × TextFile × St :=
  if !hasAttribute s.cur.attributes "id" then
    (false, file, logError s "Group does not have an ID attribute")
  else
    match qToInt (attributeValue s.cur.attributes "id") with
    | none =>
      (false, file, logError s
        (qarg "Group ID is not an integer: %1" (attributeValue s.cur.attributes "id")))
    | some id =>
      match readGroupLoop id ⟨id, []⟩ s with
      | (false, _, s₁) => (false, file, s₁)
      | (true, g, s₁) => (true, { file with groups := file.groups ++ [g] }, s₁)

/-- Parsing a group never grows the unread token list. -/
theorem readGroup_rest_le (file : TextFile) (s : St) :
    ((readGroup file s).2.2).rest.length ≤ s.rest.length := by
  unfold readGroup
  split
  · simp [logError]
  · split
    · simp [logError]
    · rename_i id hq
      split
      · rename_i g s₁ hloop
        have := readGroupLoop_rest_le id ⟨id, []⟩ s
        rw [hloop] at this
        simpa using this
      · rename_i g s₁ hloop
        have := readGroupLoop_rest_le id ⟨id, []⟩ s
        rw [hloop] at this
        simpa using this

/-- A successful group parse from a non-string current token with tokens
remaining strictly consumes input. -/
theorem readGroup_true_rest_lt (file : TextFile) (s : St) (f₁ : TextFile) (s₂ : St)
    (h : readGroup file s = (true, f₁, s₂))
    (him : isStartElementNamed s.cur "string" = false) (hne : s.rest ≠ []) :
    s₂.rest.length < s.rest.length := by
  unfold readGroup at h
  split at h
  · simp at h
  · split at h
    · simp at h
    · rename_i id hq
      split at h
      · simp at h
      · rename_i g s₁ hloop
        simp only [Prod.mk.injEq, true_and] at h
        have := readGroupLoop_rest_lt id ⟨id, []⟩ s him hne
        rw [hloop] at this
        rw [← h.2]
        simpa using this

/-- A successful group parse with no tokens left leaves the current token
and the empty token list in place. -/
theorem readGroup_nil_state (file : TextFile) (s : St) (f₁ : TextFile) (s₂ : St)
    (h : readGroup file s = (true, f₁, s₂))
    (him : isStartElementNamed s.cur "string" = false) (hr : s.rest = []) :
    s₂.cur = s.cur ∧ s₂.rest = [] := by
  unfold readGroup at h
  split at h
  · simp at h
  · split at h
    · simp at h
    · rename_i id hq
      rw [readGroupLoop_nil id ⟨id, []⟩ s him hr] at h
      simp only [Prod.mk.injEq, true_and] at h
      rw [← h.2]
      exact ⟨rfl, rfl⟩

/-- Termination of the group loop of readFile: a fully successful iteration
(matched group open tag, group parse, group close tag) strictly consumes
input. -/
theorem readFileLoop_dec (file f₁ : TextFile) (s s₁ s₂ s₃ : St)
    (h₁ : readOpenTag "group" s = (true, s₁))
    (h₂ : readGroup file s₁ = (true, f₁, s₂))
    (h₃ : readCloseTag "group" s₂ = (true, s₃)) :
    s₃.rest.length < s.rest.length := by
  by_cases him : isStartElementNamed s.cur "group" = true
  · have hs₁ : s = s₁ := by
      unfold readOpenTag at h₁
      rw [him] at h₁
      simpa using h₁
    subst hs₁
    obtain ⟨a, hcur⟩ := isStartElementNamed_eq s.cur "group" him
    have hstr : isStartElementNamed s.cur "string" = false := by
      rw [hcur]; simp [isStartElementNamed]
    by_cases hr : s.rest = []
    · exfalso
      obtain ⟨hc, hrst⟩ := readGroup_nil_state file s f₁ s₂ h₂ hstr hr
      unfold readCloseTag at h₃
      rw [hc, hcur, hrst] at h₃
      simp [isEndElementNamed, readCloseTagAux] at h₃
    · have h4 := readGroup_true_rest_lt file s f₁ s₂ h₂ hstr hr
      have h5 := readCloseTag_rest_le "group" s₂
      rw [h₃] at h5
      simp only at h5
      omega
  · have him' : isStartElementNamed s.cur "group" = false := by simpa using him
    have h4 := readOpenTag_true_lt "group" s s₁ him' h₁
    have h5 := readGroup_rest_le file s₁
    rw [h₂] at h5
    simp only at h5
    have h6 := readCloseTag_rest_le "group" s₂
    rw [h₃] at h6
    simp only at h6
    omega

/-- While loop of TextFileXmlStream::readFile (textfilexmlstream.cpp:56-60):
while a group open tag is found, parse the group and its close tag; a failure
of either aborts with false, and loop exit by a failed open-tag search yields
true so that readFile goes on to the root close tag. -/
def readFileLoop (file : TextFile) (s : St) : Bool × TextFile × St :=
  match h₁ : readOpenTag "group" s with
  | (false, s₁) => (true, file, s₁)
  | (true, s₁) =>
    match h₂ : readGroup file s₁ with
    | (false, f₁, s₂) => (false, f₁, s₂)
    | (true, f₁, s₂) =>
      match h₃ : readCloseTag "group" s₂ with
      | (false, s₃) => (false, f₁, s₃)
      | (true, s₃) => readFileLoop f₁ s₃
termination_by s.rest.length
decreasing_by exact readFileLoop_dec file f₁ s s₁ s₂ s₃ h₁ h₂ h₃

/-- Unfolding: no group open tag found ends the group loop successfully. -/
theorem readFileLoop_open_false (file : TextFile) (s s₁ : St)
    (h : readOpenTag "group" s = (false, s₁)) :
    readFileLoop file s = (true, file, s₁) := by
  rw [readFileLoop.eq_def]
  split
  · rename_i s' heq
    rw [h] at heq
    simp only [Prod.mk.injEq, true_and] at heq
    rw [heq]
  · rename_i s' heq
    rw [h] at heq
    simp at heq

/-- Unfolding: a failing group parse aborts the group loop. -/
theorem readFileLoop_group_false (file : TextFile) (s s₁ : St) (f₁ : TextFile) (s₂ : St)
    (h₁ : readOpenTag "group" s = (true, s₁))
    (h₂ : readGroup file s₁ = (false, f₁, s₂)) :
    readFileLoop file s = (false, f₁, s₂) := by
  rw [readFileLoop.eq_def]
  split
  · rename_i s' heq
    rw [h₁] at heq
    simp at heq
  · rename_i s' heq
    rw [h₁] at heq
    simp only [Prod.mk.injEq, true_and] at heq
    subst heq
    split
    · rename_i f' s' heq2
      rw [h₂] at heq2
      simp only [Prod.mk.injEq, true_and] at heq2
      obtain ⟨hf, hs⟩ := heq2
      rw [hf, hs]
    · rename_i f' s' heq2
      rw [h₂] at heq2
      simp at heq2

/-- Unfolding: a failing group close tag aborts the group loop. -/
theorem readFileLoop_close_false (file : TextFile) (s s₁ : St) (f₁ : TextFile) (s₂ s₃ : St)
    (h₁ : readOpenTag "group" s = (true, s₁))
    (h₂ : readGroup file s₁ = (true, f₁, s₂))
    (h₃ : readCloseTag "group" s₂ = (false, s₃)) :
    readFileLoop file s = (false, f₁, s₃) := by
  rw [readFileLoop.eq_def]
  split
  · rename_i s' heq
    rw [h₁] at heq
    simp at heq
  · rename_i s' heq
    rw [h₁] at heq
    simp only [Prod.mk.injEq, true_and] at heq
    subst heq
    split
    · rename_i f' s' heq2
      rw [h₂] at heq2
      simp at heq2
    · rename_i f' s' heq2
      rw [h₂] at heq2
      simp only [Prod.mk.injEq, true_and] at heq2
      obtain ⟨hf, hs⟩ := heq2
      subst hf
      subst hs
      split
      · rename_i s'' heq3
        rw [h₃] at heq3
        simp only [Prod.mk.injEq, true_and] at heq3
        rw [heq3]
      · rename_i s'' heq3
        rw [h₃] at heq3
        simp at heq3

/-- Unfolding: a full successful iteration continues the group loop. -/
theorem readFileLoop_step (file : TextFile) (s s₁ : St) (f₁ : TextFile) (s₂ s₃ : St)
    (h₁ : readOpenTag "group" s = (true, s₁))
    (h₂ : readGroup file s₁ = (true, f₁, s₂))
    (h₃ : readCloseTag "group" s₂ = (true, s₃)) :
    readFileLoop file s = readFileLoop f₁ s₃ := by
  rw [readFileLoop.eq_def]
  split
  · rename_i s' heq
    rw [h₁] at heq
    simp at heq
  · rename_i s' heq
    rw [h₁] at heq
    simp only [Prod.mk.injEq, true_and] at heq
    subst heq
    split
    · rename_i f' s' heq2
      rw [h₂] at heq2
      simp at heq2
    · rename_i f' s' heq2
      rw [h₂] at heq2
      simp only [Prod.mk.injEq, true_and] at heq2
      obtain ⟨hf, hs⟩ := heq2
      subst hf
      subst hs
      split
      · rename_i s'' heq3
        rw [h₃] at heq3
        simp at heq3
      · rename_i s'' heq3
        rw [h₃] at heq3
        simp only [Prod.mk.injEq, true_and] at heq3
        rw [heq3]

/-- Lines 50-55 of readFile: copy the optional name attribute, then the
optional indexWithCounts attribute (true unless the value is the literal
string false), into the document. -/
def applyRootAttributes (file : TextFile) (attrs : List (String × String)) : TextFile :=
  let f₁ := if hasAttribute attrs "name" then
      { file with name := attributeValue attrs "name" } else file
  if hasAttribute attrs "indexWithCounts" then
    { f₁ with indexWithCounts := !(attributeValue attrs "indexWithCounts" == "false") } else f₁

/-- TextFileXmlStream::readFile (textfilexmlstream.cpp:44-62): find the root
strings element, copy its optional name and indexWithCounts attributes into
the document, run the group loop, and finish by returning the result of the
root close tag search (a single readCloseTag call in the source; the model is
pure, so its repeated mention denotes that one result). -/
def readFile (file : TextFile) (s : St) : Bool × TextFile × St :=
  match readOpenTag "strings" s with
  | (false, s₁) => (false, file, logError s₁ "Unable to find root <strings> element")
  | (true, s₁) =>
    match readFileLoop (applyRootAttributes file s₁.cur.attributes) s₁ with
    | (false, f₃, s₂) => (false, f₃, s₂)
    | (true, f₃, s₂) => ((readCloseTag "strings" s₂).1, f₃, (readCloseTag "strings" s₂).2)

/-- TextFileXmlStream::read (textfilexmlstream.cpp:30-42) on the token stream
the tokenizer derives from the device: opening and closing the byte channel
is out of scope (the spec models it as an opaque channel); a fresh
QXmlStreamReader starts with current token NoToken and an empty log. -/
def read (file : TextFile) (tokens : List Token) : Bool × TextFile × St :=
  readFile file ⟨.noToken, tokens, []⟩

/-- The open-tag scan only appends to the log. -/
theorem readOpenTagAux_log (tag : String) : ∀ (rest : List Token) (cur : Token)
    (log : List String), ∃ e, ((readOpenTagAux tag cur rest log).2).log = log ++ e := by
  intro rest
  induction rest with
  | nil => intro cur log; exact ⟨_, rfl⟩
  | cons t ts ih =>
    intro cur log
    cases t with
    | startDocument => simpa only [readOpenTagAux] using ih _ _
    | comment => simpa only [readOpenTagAux] using ih _ _
    | dtd => simpa only [readOpenTagAux] using ih _ _
    | characters text => simpa only [readOpenTagAux] using ih _ _
    | entityReference text => simpa only [readOpenTagAux] using ih _ _
    | processingInstruction => simpa only [readOpenTagAux] using ih _ _
    | noToken => simpa only [readOpenTagAux] using ih _ _
    | invalid msg => exact ⟨_, rfl⟩
    | endDocument => exact ⟨[], by simp [readOpenTagAux]⟩
    | endElement n => exact ⟨[], by simp [readOpenTagAux]⟩
    | startElement n a =>
      simp only [readOpenTagAux]
      split
      · exact ⟨[], by simp⟩
      · exact ⟨_, rfl⟩

theorem readOpenTag_log (tag : String) (s : St) :
    ∃ e, ((readOpenTag tag s).2).log = s.log ++ e := by
  unfold readOpenTag
  split
  · exact ⟨[], by simp⟩
  · exact readOpenTagAux_log tag s.rest s.cur s.log

/-- The close-tag scan only appends to the log. -/
theorem readCloseTagAux_log (tag : String) : ∀ (rest : List Token) (cur : Token)
    (log : List String), ∃ e, ((readCloseTagAux tag cur rest log).2).log = log ++ e := by
  intro rest
  induction rest with
  | nil => intro cur log; exact ⟨_, rfl⟩
  | cons t ts ih =>
    intro cur log
    simp only [readCloseTagAux]
    split
    · exact ⟨[], by simp⟩
    · exact ih _ _

theorem readCloseTag_log (tag : String) (s : St) :
    ∃ e, ((readCloseTag tag s).2).log = s.log ++ e := by
  unfold readCloseTag
  split
  · exact ⟨[], by simp⟩
  · exact readCloseTagAux_log tag s.rest s.cur s.log

/-- A failing close-tag scan appends exactly the missing-close-tag message. -/
theorem readCloseTagAux_false_log (tag : String) : ∀ (rest : List Token) (cur : Token)
    (log : List String) (s' : St), readCloseTagAux tag cur rest log = (false, s') →
      s'.log = log ++ [qarg "Invalid XML: end element </%1> not found" tag] := by
  intro rest
  induction rest with
  | nil =>
    intro cur log s' h
    simp only [readCloseTagAux, Prod.mk.injEq, true_and] at h
    rw [← h]
  | cons t ts ih =>
    intro cur log s' h
    simp only [readCloseTagAux] at h
    split at h
    · simp at h
    · exact ih _ _ _ h

theorem readCloseTag_false_log (tag : String) (s : St) (s' : St)
    (h : readCloseTag tag s = (false, s')) :
    s'.log = s.log ++ [qarg "Invalid XML: end element </%1> not found" tag] := by
  unfold readCloseTag at h
  split at h
  · simp at h
  · exact readCloseTagAux_false_log tag s.rest s.cur s.log s' h

/-- Reading element text never touches the log. -/
theorem readElementText_log (s : St) : ((readElementText s).2).log = s.log := by
  unfold readElementText
  split
  · rfl
  · rfl

/-- The string loop only appends to the log. -/
theorem readGroupLoop_log (gid : Int) (g : TextGroup) (s : St) :
    ∃ e, ((readGroupLoop gid g s).2.2).log = s.log ++ e := by
  refine readGroupLoop.induct gid
    (fun g s => ∃ e, ((readGroupLoop gid g s).2.2).log = s.log ++ e) ?_ ?_ ?_ ?_ g s
  · intro g s s₁ h
    rw [readGroupLoop_open_false gid g s s₁ h]
    have := readOpenTag_log "string" s
    rw [h] at this
    simpa using this
  · intro g s s₁ h hq
    rw [readGroupLoop_id_none gid g s s₁ h hq]
    obtain ⟨e, he⟩ := readOpenTag_log "string" s
    rw [h] at he
    simp only at he
    exact ⟨e ++ [qarg "String ID is not an integer: %1" (attributeValue s₁.cur.attributes "id")], by simp [logError, he]⟩
  · intro g s s₁ h textId hq hne
    rw [readGroupLoop_order gid g s s₁ textId h hq hne]
    obtain ⟨e, he⟩ := readOpenTag_log "string" s
    rw [h] at he
    simp only at he
    exact ⟨e ++ [qarg "Strings in group %1 are not ordered properly" (intToString gid)], by simp [logError, he]⟩
  · intro g s s₁ h textId hq hne ih
    rw [readGroupLoop_step gid g s s₁ textId h hq (not_not.mp hne)]
    obtain ⟨e1, he1⟩ := readOpenTag_log "string" s
    rw [h] at he1
    simp only at he1
    have he2 := readElementText_log s₁
    obtain ⟨e3, he3⟩ := readCloseTag_log "string" (readElementText s₁).2
    obtain ⟨e4, he4⟩ := ih
    refine ⟨e1 ++ e3 ++ e4, ?_⟩
    rw [he4, he3, he2, he1]
    simp

/-- A failing string loop appends at least one message to the log. -/
theorem readGroupLoop_false_log (gid : Int) (g : TextGroup) (s : St) :
    ∀ (g' : TextGroup) (s' : St), readGroupLoop gid g s = (false, g', s') →
      ∃ e, s'.log = s.log ++ e ∧ e ≠ [] := by
  refine readGroupLoop.induct gid
    (fun g s => ∀ (g' : TextGroup) (s' : St), readGroupLoop gid g s = (false, g', s') →
      ∃ e, s'.log = s.log ++ e ∧ e ≠ []) ?_ ?_ ?_ ?_ g s
  · intro g s s₁ h g' s' hr
    rw [readGroupLoop_open_false gid g s s₁ h] at hr
    simp at hr
  · intro g s s₁ h hq g' s' hr
    rw [readGroupLoop_id_none gid g s s₁ h hq] at hr
    simp only [Prod.mk.injEq, true_and] at hr
    obtain ⟨e, he⟩ := readOpenTag_log "string" s
    rw [h] at he
    simp only at he
    refine ⟨e ++ [qarg "String ID is not an integer: %1" (attributeValue s₁.cur.attributes "id")], ?_, by simp⟩
    rw [← hr.2]
    simp [logError, he]
  · intro g s s₁ h textId hq hne g' s' hr
    rw [readGroupLoop_order gid g s s₁ textId h hq hne] at hr
    simp only [Prod.mk.injEq, true_and] at hr
    obtain ⟨e, he⟩ := readOpenTag_log "string" s
    rw [h] at he
    simp only at he
    refine ⟨e ++ [qarg "Strings in group %1 are not ordered properly" (intToString gid)], ?_, by simp⟩
    rw [← hr.2]
    simp [logError, he]
  · intro g s s₁ h textId hq hne ih g' s' hr
    rw [readGroupLoop_step gid g s s₁ textId h hq (not_not.mp hne)] at hr
    obtain ⟨e4, he4, hne4⟩ := ih g' s' hr
    obtain ⟨e1, he1⟩ := readOpenTag_log "string" s
    rw [h] at he1
    simp only at he1
    have he2 := readElementText_log s₁
    obtain ⟨e3, he3⟩ := readCloseTag_log "string" (readElementText s₁).2
    refine ⟨e1 ++ e3 ++ e4, ?_, by simp [hne4]⟩
    rw [he4, he3, he2, he1]
    simp

/-- Parsing a group only appends to the log. -/
theorem readGroup_log (file : TextFile) (s : St) :
    ∃ e, ((readGroup file s).2.2).log = s.log ++ e := by
  unfold readGroup
  split
  · exact ⟨_, rfl⟩
  · split
    · exact ⟨_, rfl⟩
    · rename_i id hq
      split
      · rename_i g s₁ hloop
        have := readGroupLoop_log id ⟨id, []⟩ s
        rw [hloop] at this
        simpa using this
      · rename_i g s₁ hloop
        have := readGroupLoop_log id ⟨id, []⟩ s
        rw [hloop] at this
        simpa using this

/-- A failing group parse appends at least one message to the log. -/
theorem readGroup_false_log (file : TextFile) (s : St) (f' : TextFile) (s' : St)
    (h : readGroup file s = (false, f', s')) :
    ∃ e, s'.log = s.log ++ e ∧ e ≠ [] := by
  unfold readGroup at h
  split at h
  · simp only [Prod.mk.injEq, true_and] at h
    exact ⟨["Group does not have an ID attribute"], by rw [← h.2]; simp [logError], by simp⟩
  · split at h
    · simp only [Prod.mk.injEq, true_and] at h
      exact ⟨[qarg "Group ID is not an integer: %1" (attributeValue s.cur.attributes "id")],
        by rw [← h.2]; simp [logError], by simp⟩
    · rename_i id hq
      split at h
      · rename_i g s₁ hloop
        simp only [Prod.mk.injEq, true_and] at h
        rw [← h.2]
        exact readGroupLoop_false_log id ⟨id, []⟩ s g s₁ hloop
      · simp at h

/-- Parsing a group leaves the document flag and name untouched. -/
theorem readGroup_meta (file : TextFile) (s : St) :
    ((readGroup file s).2.1).indexWithCounts = file.indexWithCounts
      ∧ ((readGroup file s).2.1).name = file.name := by
  unfold readGroup
  split
  · exact ⟨rfl, rfl⟩
  · split
    · exact ⟨rfl, rfl⟩
    · split
      · exact ⟨rfl, rfl⟩
      · exact ⟨rfl, rfl⟩

/-- The group loop only appends to the log. -/
theorem readFileLoop_log (file : TextFile) (s : St) :
    ∃ e, ((readFileLoop file s).2.2).log = s.log ++ e := by
  induction file, s using readFileLoop.induct with
  | case1 file s s₁ h =>
    rw [readFileLoop_open_false file s s₁ h]
    have := readOpenTag_log "group" s
    rw [h] at this
    simpa using this
  | case2 file s s₁ h₁ f₁ s₂ h₂ =>
    rw [readFileLoop_group_false file s s₁ f₁ s₂ h₁ h₂]
    obtain ⟨e1, he1⟩ := readOpenTag_log "group" s
    rw [h₁] at he1
    simp only at he1
    obtain ⟨e2, he2⟩ := readGroup_log file s₁
    rw [h₂] at he2
    simp only at he2
    exact ⟨e1 ++ e2, by simp [he2, he1]⟩
  | case3 file s s₁ h₁ f₁ s₂ h₂ s₃ h₃ =>
    rw [readFileLoop_close_false file s s₁ f₁ s₂ s₃ h₁ h₂ h₃]
    obtain ⟨e1, he1⟩ := readOpenTag_log "group" s
    rw [h₁] at he1
    simp only at he1
    obtain ⟨e2, he2⟩ := readGroup_log file s₁
    rw [h₂] at he2
    simp only at he2
    obtain ⟨e3, he3⟩ := readCloseTag_log "group" s₂
    rw [h₃] at he3
    simp only at he3
    exact ⟨e1 ++ (e2 ++ e3), by simp [he3, he2, he1]⟩
  | case4 file s s₁ h₁ f₁ s₂ h₂ s₃ h₃ ih =>
    rw [readFileLoop_step file s s₁ f₁ s₂ s₃ h₁ h₂ h₃]
    obtain ⟨e1, he1⟩ := readOpenTag_log "group" s
    rw [h₁] at he1
    simp only at he1
    obtain ⟨e2, he2⟩ := readGroup_log file s₁
    rw [h₂] at he2
    simp only at he2
    obtain ⟨e3, he3⟩ := readCloseTag_log "group" s₂
    rw [h₃] at he3
    simp only at he3
    obtain ⟨e4, he4⟩ := ih
    exact ⟨e1 ++ (e2 ++ (e3 ++ e4)), by simp [he4, he3, he2, he1]⟩

/-- A failing group loop appends at least one message to the log. -/
theorem readFileLoop_false_log (file : TextFile) (s : St) :
    ∀ (f' : TextFile) (s' : St), readFileLoop file s = (false, f', s') →
      ∃ e, s'.log = s.log ++ e ∧ e ≠ [] := by
  induction file, s using readFileLoop.induct with
  | case1 file s s₁ h =>
    intro f' s' hr
    rw [readFileLoop_open_false file s s₁ h] at hr
    simp at hr
  | case2 file s s₁ h₁ f₁ s₂ h₂ =>
    intro f' s' hr
    rw [readFileLoop_group_false file s s₁ f₁ s₂ h₁ h₂] at hr
    simp only [Prod.mk.injEq, true_and] at hr
    obtain ⟨e1, he1⟩ := readOpenTag_log "group" s
    rw [h₁] at he1
    simp only at he1
    obtain ⟨e2, he2, hne2⟩ := readGroup_false_log file s₁ f₁ s₂ h₂
    refine ⟨e1 ++ e2, ?_, by simp [hne2]⟩
    rw [← hr.2]
    simp [he2, he1]
  | case3 file s s₁ h₁ f₁ s₂ h₂ s₃ h₃ =>
    intro f' s' hr
    rw [readFileLoop_close_false file s s₁ f₁ s₂ s₃ h₁ h₂ h₃] at hr
    simp only [Prod.mk.injEq, true_and] at hr
    obtain ⟨e1, he1⟩ := readOpenTag_log "group" s
    rw [h₁] at he1
    simp only at he1
    obtain ⟨e2, he2⟩ := readGroup_log file s₁
    rw [h₂] at he2
    simp only at he2
    have he3 := readCloseTag_false_log "group" s₂ s₃ h₃
    refine ⟨e1 ++ (e2 ++ [qarg "Invalid XML: end element </%1> not found" "group"]), ?_, by simp⟩
    rw [← hr.2]
    simp [he3, he2, he1]
  | case4 file s s₁ h₁ f₁ s₂ h₂ s₃ h₃ ih =>
    intro f' s' hr
    rw [readFileLoop_step file s s₁ f₁ s₂ s₃ h₁ h₂ h₃] at hr
    obtain ⟨e4, he4, hne4⟩ := ih f' s' hr
    obtain ⟨e1, he1⟩ := readOpenTag_log "group" s
    rw [h₁] at he1
    simp only at he1
    obtain ⟨e2, he2⟩ := readGroup_log file s₁
    rw [h₂] at he2
    simp only at he2
    obtain ⟨e3, he3⟩ := readCloseTag_log "group" s₂
    rw [h₃] at he3
    simp only at he3
    refine ⟨e1 ++ (e2 ++ (e3 ++ e4)), ?_, by simp [hne4]⟩
    rw [he4, he3, he2, he1]
    simp

/-- The group loop leaves the document flag and name untouched. -/
theorem readFileLoop_meta (file : TextFile) (s : St) :
    ((readFileLoop file s).2.1).indexWithCounts = file.indexWithCounts
      ∧ ((readFileLoop file s).2.1).name = file.name := by
  induction file, s using readFileLoop.induct with
  | case1 file s s₁ h =>
    rw [readFileLoop_open_false file s s₁ h]
    exact ⟨rfl, rfl⟩
  | case2 file s s₁ h₁ f₁ s₂ h₂ =>
    rw [readFileLoop_group_false file s s₁ f₁ s₂ h₁ h₂]
    have := readGroup_meta file s₁
    rw [h₂] at this
    simpa using this
  | case3 file s s₁ h₁ f₁ s₂ h₂ s₃ h₃ =>
    rw [readFileLoop_close_false file s s₁ f₁ s₂ s₃ h₁ h₂ h₃]
    have := readGroup_meta file s₁
    rw [h₂] at this
    simpa using this
  | case4 file s s₁ h₁ f₁ s₂ h₂ s₃ h₃ ih =>
    rw [readFileLoop_step file s s₁ f₁ s₂ s₃ h₁ h₂ h₃]
    have := readGroup_meta file s₁
    rw [h₂] at this
    simp only at this
    exact ⟨ih.1.trans this.1, ih.2.trans this.2⟩

/-- A failing readFile appends at least one message to the log. -/
theorem readFile_false_log (file : TextFile) (s : St) (f' : TextFile) (s' : St)
    (h : readFile file s = (false, f', s')) :
    ∃ e, s'.log = s.log ++ e ∧ e ≠ [] := by
  unfold readFile at h
  split at h
  · rename_i s₁ hopen
    simp only [Prod.mk.injEq, true_and] at h
    obtain ⟨e1, he1⟩ := readOpenTag_log "strings" s
    rw [hopen] at he1
    simp only at he1
    refine ⟨e1 ++ ["Unable to find root <strings> element"], ?_, by simp⟩
    rw [← h.2]
    simp [logError, he1]
  · rename_i s₁ hopen
    obtain ⟨e1, he1⟩ := readOpenTag_log "strings" s
    rw [hopen] at he1
    simp only at he1
    split at h
    · rename_i f₃ s₂ hloop
      simp only [Prod.mk.injEq, true_and] at h
      obtain ⟨e2, he2, hne2⟩ := readFileLoop_false_log _ s₁ f₃ s₂ hloop
      refine ⟨e1 ++ e2, ?_, by simp [hne2]⟩
      rw [← h.2]
      simp [he2, he1]
    · rename_i f₃ s₂ hloop
      simp only [Prod.mk.injEq] at h
      obtain ⟨hb, _, hs⟩ := h
      obtain ⟨e2, he2⟩ := readFileLoop_log _ s₁
      rw [hloop] at he2
      simp only at he2
      have hclose : readCloseTag "strings" s₂ = (false, (readCloseTag "strings" s₂).2) := by
        rw [← hb]
      have he3 := readCloseTag_false_log "strings" s₂ _ hclose
      refine ⟨e1 ++ (e2 ++ [qarg "Invalid XML: end element </%1> not found" "strings"]),
        ?_, by simp⟩
      rw [← hs]
      simp [he3, he2, he1]

/-- Inner loop of TextFileXmlStream::writeGroup (textfilexmlstream.cpp:184-191):
each string is written as a string element whose id attribute is its
zero-based position, with its text as character data. -/
def writeStringTokens : Nat → List String → List Token
  | _, [] => []
  | index, text :: rest =>
    .startElement "string" [("id", intToString (index : Int))] :: .characters text
      :: .endElement "string" :: writeStringTokens (index + 1) rest

/-- TextFileXmlStream::writeGroup (textfilexmlstream.cpp:177-194) as the token
sequence handed to the XML writer. -/
def writeGroupTokens (group : TextGroup) : List Token :=
  .startElement "group" [("id", intToString group.id)]
    :: (writeStringTokens 0 group.strings ++ [.endElement "group"])

/-- TextFileXmlStream::write (textfilexmlstream.cpp:151-175) as the token
sequence handed to the XML writer: document start, the root strings element
with name and indexWithCounts attributes, each group in order, then the close
of the root and the document end.  The whitespace that the auto-formatting
writer adds between elements is non-semantic and omitted, as the spec's
round-trip property allows. -/
def writeTokens (file : TextFile) : List Token :=
  .startDocument
    :: .startElement "strings"
        [("name", file.name),
         ("indexWithCounts", if file.indexWithCounts then "true" else "false")]
    :: ((file.groups.map writeGroupTokens).flatten ++ [.endElement "strings", .endDocument])

/-- Round trip of the string loop: reading back the written strings of a
group, starting after position done.length, appends exactly those strings in
order and stops on the group close tag. -/
theorem readGroupLoop_writeStrings (gid : Int) :
    ∀ (rem done : List String) (cur : Token) (tail : List Token) (log : List String),
      isStartElementNamed cur "string" = false →
      readGroupLoop gid ⟨gid, done⟩
          ⟨cur, writeStringTokens done.length rem ++ Token.endElement "group" :: tail, log⟩
        = (true, ⟨gid, done ++ rem⟩, ⟨Token.endElement "group", tail, log⟩) := by
  intro rem
  induction rem with
  | nil =>
    intro done cur tail log him
    have hopen : readOpenTag "string"
        ⟨cur, writeStringTokens done.length [] ++ Token.endElement "group" :: tail, log⟩
        = (false, ⟨Token.endElement "group", tail, log⟩) := by
      unfold readOpenTag
      rw [him]
      simp [writeStringTokens, readOpenTagAux]
    rw [readGroupLoop_open_false gid ⟨gid, done⟩ _ _ hopen]
    simp
  | cons text rem ih =>
    intro done cur tail log him
    have hopen : readOpenTag "string"
        ⟨cur, writeStringTokens done.length (text :: rem) ++ Token.endElement "group" :: tail,
          log⟩
        = (true, ⟨Token.startElement "string" [("id", intToString (done.length : Int))],
            Token.characters text :: Token.endElement "string"
              :: (writeStringTokens (done.length + 1) rem ++ Token.endElement "group" :: tail),
            log⟩) := by
      unfold readOpenTag
      rw [him]
      simp [writeStringTokens, readOpenTagAux]
    have hq : qToInt (attributeValue
        (Token.startElement "string" [("id", intToString (done.length : Int))]).attributes "id")
        = some (done.length : Int) := by
      simp only [Token.attributes]
      rw [show attributeValue [("id", intToString (done.length : Int))] "id"
        = intToString (done.length : Int) by simp [attributeValue]]
      exact qToInt_intToString _
    rw [readGroupLoop_step gid ⟨gid, done⟩ _ _ (done.length : Int) hopen hq
      (by simp [TextGroup.size])]
    have helem : readElementText ⟨Token.startElement "string"
        [("id", intToString (done.length : Int))],
        Token.characters text :: Token.endElement "string"
          :: (writeStringTokens (done.length + 1) rem ++ Token.endElement "group" :: tail),
        log⟩
        = (text, ⟨Token.endElement "string",
            writeStringTokens (done.length + 1) rem ++ Token.endElement "group" :: tail, log⟩) := by
      simp [readElementText, Token.isStart, readElementTextAux]
    rw [helem]
    have hclose : readCloseTag "string" ⟨Token.endElement "string",
        writeStringTokens (done.length + 1) rem ++ Token.endElement "group" :: tail, log⟩
        = (true, ⟨Token.endElement "string",
            writeStringTokens (done.length + 1) rem ++ Token.endElement "group" :: tail, log⟩) := by
      simp [readCloseTag, isEndElementNamed]
    rw [hclose]
    have hadd : TextGroup.add ⟨gid, done⟩ text = ⟨gid, done ++ [text]⟩ := rfl
    rw [hadd]
    have hlen : done.length + 1 = (done ++ [text]).length := by simp
    rw [hlen]
    rw [ih (done ++ [text]) (Token.endElement "string") tail log (by simp [isStartElementNamed])]
    simp

/-- Round trip of the group loop: reading back the written groups appends
exactly those groups in order and stops on the root close tag. -/
theorem readFileLoop_writeGroups :
    ∀ (gs : List TextGroup) (f : TextFile) (cur : Token) (tail : List Token) (log : List String),
      isStartElementNamed cur "group" = false →
      readFileLoop f
          ⟨cur, (gs.map writeGroupTokens).flatten ++ Token.endElement "strings" :: tail, log⟩
        = (true, { f with groups := f.groups ++ gs },
            ⟨Token.endElement "strings", tail, log⟩) := by
  intro gs
  induction gs with
  | nil =>
    intro f cur tail log him
    have hopen : readOpenTag "group"
        ⟨cur, ([].map writeGroupTokens).flatten ++ Token.endElement "strings" :: tail, log⟩
        = (false, ⟨Token.endElement "strings", tail, log⟩) := by
      unfold readOpenTag
      rw [him]
      simp [readOpenTagAux]
    rw [readFileLoop_open_false f _ _ hopen]
    simp
  | cons g gs ih =>
    intro f cur tail log him
    have hshape : ((g :: gs).map writeGroupTokens).flatten
        ++ Token.endElement "strings" :: tail
        = Token.startElement "group" [("id", intToString g.id)]
          :: (writeStringTokens 0 g.strings ++ Token.endElement "group"
            :: ((gs.map writeGroupTokens).flatten ++ Token.endElement "strings" :: tail)) := by
      simp [writeGroupTokens]
    rw [hshape]
    have hopen : readOpenTag "group"
        ⟨cur, Token.startElement "group" [("id", intToString g.id)]
          :: (writeStringTokens 0 g.strings ++ Token.endElement "group"
            :: ((gs.map writeGroupTokens).flatten ++ Token.endElement "strings" :: tail)), log⟩
        = (true, ⟨Token.startElement "group" [("id", intToString g.id)],
            writeStringTokens 0 g.strings ++ Token.endElement "group"
              :: ((gs.map writeGroupTokens).flatten ++ Token.endElement "strings" :: tail),
            log⟩) := by
      unfold readOpenTag
      rw [him]
      simp [readOpenTagAux]
    have hgroup : readGroup f ⟨Token.startElement "group" [("id", intToString g.id)],
        writeStringTokens 0 g.strings ++ Token.endElement "group"
          :: ((gs.map writeGroupTokens).flatten ++ Token.endElement "strings" :: tail), log⟩
        = (true, { f with groups := f.groups ++ [g] },
            ⟨Token.endElement "group",
              (gs.map writeGroupTokens).flatten ++ Token.endElement "strings" :: tail, log⟩) := by
      unfold readGroup
      rw [if_neg (by simp [Token.attributes, hasAttribute])]
      rw [show attributeValue (Token.startElement "group"
          [("id", intToString g.id)]).attributes "id" = intToString g.id by
        simp [Token.attributes, attributeValue]]
      rw [qToInt_intToString]
      have hloop := readGroupLoop_writeStrings g.id g.strings [] (Token.startElement "group"
          [("id", intToString g.id)])
        ((gs.map writeGroupTokens).flatten ++ Token.endElement "strings" :: tail) log
        (by simp [isStartElementNamed])
      simp only [List.length_nil, List.nil_append] at hloop
      simp only [hloop]
    have hclose : readCloseTag "group" ⟨Token.endElement "group",
        (gs.map writeGroupTokens).flatten ++ Token.endElement "strings" :: tail, log⟩
        = (true, ⟨Token.endElement "group",
            (gs.map writeGroupTokens).flatten ++ Token.endElement "strings" :: tail, log⟩) := by
      simp [readCloseTag, isEndElementNamed]
    rw [readFileLoop_step f _ _ _ _ _ hopen hgroup hclose]
    rw [ih { f with groups := f.groups ++ [g] } (Token.endElement "group") tail log
      (by simp [isStartElementNamed])]
    simp

/-- The token kinds the open-tag scan silently skips (the continue cases of
the switch at textfilexmlstream.cpp:72-79). -/
def isSkippable : Token → Bool
  | .startDocument | .comment | .dtd | .characters _ | .entityReference _
  | .processingInstruction | .noToken => true
  | _ => false

/-- The first token of the list that the open-tag scan does not skip. -/
def firstSignificant : List Token → Option Token
  | [] => none
  | t :: ts => if isSkippable t then firstSignificant ts else some t

/-- Appending a message never yields the same log back. -/
theorem log_append_ne (log : List String) (m : String) : log ++ [m] ≠ log := by
  intro h
  have := congrArg List.length h
  simp at this

/-- Classification of the open-tag scan by the first significant token: the
scan is silent (and fails) exactly when that token is an end element or the
end of the document. -/
theorem readOpenTagAux_classify (tag : String) : ∀ (rest : List Token) (cur : Token)
    (log : List String) (b : Bool) (s' : St),
    readOpenTagAux tag cur rest log = (b, s') →
    ((b = false ∧ s'.log = log) ↔
      ((∃ n, firstSignificant rest = some (Token.endElement n))
        ∨ firstSignificant rest = some Token.endDocument)) := by
  intro rest
  induction rest with
  | nil =>
    intro cur log b s' h
    simp only [readOpenTagAux, Prod.mk.injEq] at h
    constructor
    · intro ⟨_, hlog⟩
      rw [← h.2] at hlog
      exact absurd hlog (by simpa using log_append_ne log _)
    · intro hfs
      simp [firstSignificant] at hfs
  | cons t ts ih =>
    intro cur log b s' h
    cases t with
    | startDocument =>
      have h' : readOpenTagAux tag Token.startDocument ts log = (b, s') := h
      simpa [firstSignificant, isSkippable] using ih _ log b s' h'
    | comment =>
      have h' : readOpenTagAux tag Token.comment ts log = (b, s') := h
      simpa [firstSignificant, isSkippable] using ih _ log b s' h'
    | dtd =>
      have h' : readOpenTagAux tag Token.dtd ts log = (b, s') := h
      simpa [firstSignificant, isSkippable] using ih _ log b s' h'
    | characters text =>
      have h' : readOpenTagAux tag (Token.characters text) ts log = (b, s') := h
      simpa [firstSignificant, isSkippable] using ih _ log b s' h'
    | entityReference text =>
      have h' : readOpenTagAux tag (Token.entityReference text) ts log = (b, s') := h
      simpa [firstSignificant, isSkippable] using ih _ log b s' h'
    | processingInstruction =>
      have h' : readOpenTagAux tag Token.processingInstruction ts log = (b, s') := h
      simpa [firstSignificant, isSkippable] using ih _ log b s' h'
    | noToken =>
      have h' : readOpenTagAux tag Token.noToken ts log = (b, s') := h
      simpa [firstSignificant, isSkippable] using ih _ log b s' h'
    | invalid msg =>
      have h' : ((false, ⟨Token.invalid msg, ts, log ++ [qarg "Invalid XML: %s" msg]⟩) :
          Bool × St) = (b, s') := h
      injection h' with hb hs
      subst hb
      subst hs
      constructor
      · intro ⟨_, hlog⟩
        exact absurd hlog (log_append_ne log _)
      · intro hfs
        simp [firstSignificant, isSkippable] at hfs
    | endDocument =>
      have h' : ((false, ⟨Token.endDocument, ts, log⟩) : Bool × St) = (b, s') := h
      injection h' with hb hs
      subst hb
      subst hs
      constructor
      · intro _
        right
        simp [firstSignificant, isSkippable]
      · intro _
        exact ⟨rfl, rfl⟩
    | endElement n =>
      have h' : ((false, ⟨Token.endElement n, ts, log⟩) : Bool × St) = (b, s') := h
      injection h' with hb hs
      subst hb
      subst hs
      constructor
      · intro _
        exact Or.inl ⟨n, by simp [firstSignificant, isSkippable]⟩
      · intro _
        exact ⟨rfl, rfl⟩
    | startElement n a =>
      by_cases hn : (n == tag) = true
      · have h' : ((true, ⟨Token.startElement n a, ts, log⟩) : Bool × St) = (b, s') := by
          rw [← h]
          show _ = readOpenTagAux tag cur (Token.startElement n a :: ts) log
          simp [readOpenTagAux, hn]
        injection h' with hb hs
        subst hb
        subst hs
        constructor
        · intro ⟨hb, _⟩
          exact absurd hb (by simp)
        · intro hfs
          simp [firstSignificant, isSkippable] at hfs
      · have h' : ((false, ⟨Token.startElement n a, ts,
            log ++ [qarg2 "Invalid XML: expected tag <%1>, got <%2>" tag n]⟩) :
            Bool × St) = (b, s') := by
          rw [← h]
          show _ = readOpenTagAux tag cur (Token.startElement n a :: ts) log
          simp [readOpenTagAux, hn]
        injection h' with hb hs
        subst hb
        subst hs
        constructor
        · intro ⟨_, hlog⟩
          exact absurd hlog (log_append_ne log _)
        · intro hfs
          simp [firstSignificant, isSkippable] at hfs

/-- The close-tag scan stops at the first matching end element, skipping all
earlier tokens whatever they are. -/
theorem readCloseTagAux_found (tag : String) : ∀ (pre : List Token) (cur : Token)
    (post : List Token) (log : List String),
    (∀ t ∈ pre, isEndElementNamed t tag = false) →
    readCloseTagAux tag cur (pre ++ Token.endElement tag :: post) log
      = (true, ⟨Token.endElement tag, post, log⟩) := by
  intro pre
  induction pre with
  | nil =>
    intro cur post log _
    simp [readCloseTagAux, isEndElementNamed]
  | cons t ts ih =>
    intro cur post log hall
    have ht := hall t (by simp)
    simp only [List.cons_append, readCloseTagAux, ht, Bool.false_eq_true, if_false]
    exact ih t post log (fun u hu => hall u (by simp [hu]))

/-- The close-tag scan fails when no token of the list is a matching end
element. -/
theorem readCloseTagAux_none (tag : String) : ∀ (rest : List Token) (cur : Token)
    (log : List String),
    (∀ t ∈ rest, isEndElementNamed t tag = false) →
    (readCloseTagAux tag cur rest log).1 = false := by
  intro rest
  induction rest with
  | nil => intro cur log _; simp [readCloseTagAux]
  | cons t ts ih =>
    intro cur log hall
    have ht := hall t (by simp)
    simp only [readCloseTagAux, ht, Bool.false_eq_true, if_false]
    exact ih t log (fun u hu => hall u (by simp [hu]))

/-- The value of an absent attribute is the empty string. -/
theorem attributeValue_absent (attrs : List (String × String)) (name : String)
    (h : hasAttribute attrs name = false) : attributeValue attrs name = "" := by
  unfold hasAttribute at h
  unfold attributeValue
  cases hf : attrs.find? (fun p => p.1 == name) with
  | none => rfl
  | some p => rw [hf] at h; simp at h

/-- The empty string does not parse as an integer. -/
theorem qToInt_empty : qToInt "" = none := rfl

set_option maxRecDepth 10000 in
/-- Round trip at the document level: reading the written token stream of any
document into a default document reproduces it exactly, with an empty log. -/
theorem read_writeTokens (d : TextFile) :
    read emptyTextFile (writeTokens d)
      = (true, d, ⟨Token.endElement "strings", [Token.endDocument], []⟩) := by
  unfold read readFile
  have hopen : readOpenTag "strings" ⟨Token.noToken, writeTokens d, []⟩
      = (true, ⟨Token.startElement "strings"
          [("name", d.name),
           ("indexWithCounts", if d.indexWithCounts then "true" else "false")],
          (d.groups.map writeGroupTokens).flatten
            ++ [Token.endElement "strings", Token.endDocument], []⟩) := by
    unfold readOpenTag
    simp [isStartElementNamed, writeTokens, readOpenTagAux]
  have hattrs : applyRootAttributes emptyTextFile (Token.startElement "strings"
      [("name", d.name),
       ("indexWithCounts", if d.indexWithCounts then "true" else "false")]).attributes
      = ⟨d.name, d.indexWithCounts, []⟩ := by
    cases hflag : d.indexWithCounts <;>
      simp [applyRootAttributes, Token.attributes, hasAttribute, attributeValue,
        emptyTextFile, hflag]
  have hloop := readFileLoop_writeGroups d.groups ⟨d.name, d.indexWithCounts, []⟩
    (Token.startElement "strings"
      [("name", d.name),
       ("indexWithCounts", if d.indexWithCounts then "true" else "false")])
    [Token.endDocument] [] (by simp [isStartElementNamed])
  simp only [hopen]
  simp only [hattrs]
  simp only [hloop]
  simp [readCloseTag, isEndElementNamed]

/-! The claims. -/

/-- C1 (amended): whenever read returns failure, at least one error has been
reported via the logger.  (The original direction — a reported error always
surfaces as failure — fails on the code; see the counterexample.) -/
theorem c1_read_false_implies_error_logged (file : TextFile) (tokens : List Token)
    (f' : TextFile) (s' : St) (h : read file tokens = (false, f', s')) : s'.log ≠ [] := by
  obtain ⟨e, he, hne⟩ := readFile_false_log file ⟨Token.noToken, tokens, []⟩ f' s' h
  simp only at he
  rw [he]
  simpa using hne

/-- C1 (witness): on input with no root strings element, read fails and the
log is not empty. -/
theorem c1_read_false_implies_error_logged_witness :
    (read emptyTextFile [Token.startDocument, Token.startElement "foo" [],
      Token.endElement "foo", Token.endDocument]).2.2.log ≠ [] := by
  have h : read emptyTextFile [Token.startDocument, Token.startElement "foo" [],
      Token.endElement "foo", Token.endDocument]
      = (false, emptyTextFile, ⟨Token.startElement "foo" [],
          [Token.endElement "foo", Token.endDocument],
          [qarg2 "Invalid XML: expected tag <%1>, got <%2>" "strings" "foo",
           "Unable to find root <strings> element"]⟩) := by
    simp [read, readFile, readOpenTag, readOpenTagAux, isStartElementNamed, logError]
  exact h ▸ c1_read_false_implies_error_logged emptyTextFile _ _ _ h

/-- C1 (counterexample): a structure-mismatch error is reported via the logger
while scanning for the next group element, yet read returns success — the
claim that read never returns success after a reported error is false. -/
theorem c1_counterexample :
    (read emptyTextFile [Token.startDocument, Token.startElement "strings" [],
      Token.startElement "foo" [], Token.endElement "foo", Token.endElement "strings",
      Token.endDocument]).1 = true
    ∧ (read emptyTextFile [Token.startDocument, Token.startElement "strings" [],
      Token.startElement "foo" [], Token.endElement "foo", Token.endElement "strings",
      Token.endDocument]).2.2.log ≠ [] := by
  have h : read emptyTextFile [Token.startDocument, Token.startElement "strings" [],
      Token.startElement "foo" [], Token.endElement "foo", Token.endElement "strings",
      Token.endDocument]
      = (true, emptyTextFile, ⟨Token.endElement "strings", [Token.endDocument],
          [qarg2 "Invalid XML: expected tag <%1>, got <%2>" "group" "foo"]⟩) := by
    simp [read, readFile, readFileLoop, readGroupLoop, readGroup, readOpenTag, readOpenTagAux,
      readCloseTag, readCloseTagAux, readElementText, readElementTextAux, isStartElementNamed,
      isEndElementNamed, Token.attributes, hasAttribute, attributeValue, qToInt, parseNatDigits,
      parseDigitsGo, logError, applyRootAttributes, emptyTextFile]
  rw [h]
  exact ⟨rfl, by simp⟩

/-- C2: when the open-tag scan meets an end element or the document end while
searching (the first significant unread token), it returns failure with no
message logged, and those are exactly the silent outcomes: a mismatched start
element, an invalid token, or the stream running out all log a message. -/
theorem c2_silent_loop_termination (tag : String) (s : St) (b : Bool) (s' : St)
    (h : readOpenTag tag s = (b, s')) (him : isStartElementNamed s.cur tag = false) :
    ((b = false ∧ s'.log = s.log) ↔
      ((∃ n, firstSignificant s.rest = some (Token.endElement n))
        ∨ firstSignificant s.rest = some Token.endDocument)) := by
  unfold readOpenTag at h
  rw [him] at h
  simp only [Bool.false_eq_true, if_false] at h
  exact readOpenTagAux_classify tag s.rest s.cur s.log b s' h

/-- C2 (witness): meeting the document end while searching for a group tag
fails silently. -/
theorem c2_silent_loop_termination_witness :
    ((false = false ∧ (["x"] : List String) = ["x"]) ↔
      ((∃ n, firstSignificant [Token.endDocument] = some (Token.endElement n))
        ∨ firstSignificant [Token.endDocument] = some Token.endDocument)) :=
  c2_silent_loop_termination "group" ⟨Token.noToken, [Token.endDocument], ["x"]⟩ false
    ⟨Token.endDocument, [], ["x"]⟩ (by simp [readOpenTag, readOpenTagAux, isStartElementNamed])
    (by decide)

/-- C3: serializing any document with write and parsing the result with read
into a default document succeeds, reproduces the document exactly (same name,
same indexWithCounts flag, same groups with the same ids and strings in
order), and reports no error. -/
theorem c3_round_trip (d : TextFile) :
    (read emptyTextFile (writeTokens d)).1 = true
    ∧ (read emptyTextFile (writeTokens d)).2.1 = d
    ∧ (read emptyTextFile (writeTokens d)).2.2.log = [] := by
  rw [read_writeTokens d]
  exact ⟨rfl, rfl, rfl⟩

/-- Token stream of a group with string ids 0, 1, 3. -/
def tokensOutOfOrder : List Token :=
  [Token.startDocument, Token.startElement "strings" [],
   Token.startElement "group" [("id", "7")],
   Token.startElement "string" [("id", "0")], Token.characters "a", Token.endElement "string",
   Token.startElement "string" [("id", "1")], Token.characters "b", Token.endElement "string",
   Token.startElement "string" [("id", "3")], Token.characters "c", Token.endElement "string",
   Token.endElement "group", Token.endElement "strings", Token.endDocument]

/-- Token stream of a group with string ids 0, 1, 2. -/
def tokensInOrder : List Token :=
  [Token.startDocument,
   Token.startElement "strings" [("name", "x"), ("indexWithCounts", "true")],
   Token.startElement "group" [("id", "7")],
   Token.startElement "string" [("id", "0")], Token.characters "a", Token.endElement "string",
   Token.startElement "string" [("id", "1")], Token.characters "b", Token.endElement "string",
   Token.startElement "string" [("id", "2")], Token.characters "c", Token.endElement "string",
   Token.endElement "group", Token.endElement "strings", Token.endDocument]

set_option maxHeartbeats 1000000 in
/-- Reading the out-of-order stream fails with the ordering error. -/
theorem read_tokensOutOfOrder :
    read emptyTextFile tokensOutOfOrder
      = (false, emptyTextFile,
          ⟨Token.startElement "string" [("id", "3")],
           [Token.characters "c", Token.endElement "string", Token.endElement "group",
            Token.endElement "strings", Token.endDocument],
           ["Strings in group 7 are not ordered properly"]⟩) := by
  have h1 : readOpenTag "strings" ⟨Token.noToken, tokensOutOfOrder, []⟩
      = (true, ⟨Token.startElement "strings" [], tokensOutOfOrder.drop 2, []⟩) := by
    simp [readOpenTag, readOpenTagAux, isStartElementNamed, tokensOutOfOrder]
  have h2 : readOpenTag "group" ⟨Token.startElement "strings" [], tokensOutOfOrder.drop 2, []⟩
      = (true, ⟨Token.startElement "group" [("id", "7")], tokensOutOfOrder.drop 3, []⟩) := by
    simp [readOpenTag, readOpenTagAux, isStartElementNamed, tokensOutOfOrder]
  have h3loop : readGroupLoop 7 ⟨7, []⟩
      ⟨Token.startElement "group" [("id", "7")], tokensOutOfOrder.drop 3, []⟩
      = (false, ⟨7, ["a", "b"]⟩,
          ⟨Token.startElement "string" [("id", "3")],
           [Token.characters "c", Token.endElement "string", Token.endElement "group",
            Token.endElement "strings", Token.endDocument],
           ["Strings in group 7 are not ordered properly"]⟩) := by
    simp [readGroupLoop, readOpenTag, readOpenTagAux, isStartElementNamed, readElementText,
      readElementTextAux, Token.isStart, readCloseTag, readCloseTagAux, isEndElementNamed,
      Token.attributes, attributeValue, TextGroup.size, TextGroup.add, logError,
      tokensOutOfOrder,
      show qToInt "0" = some 0 from by decide, show qToInt "1" = some 1 from by decide,
      show qToInt "3" = some 3 from by decide,
      show qarg "Strings in group %1 are not ordered properly" (intToString 7)
        = "Strings in group 7 are not ordered properly" from by decide]
  have h3 : readGroup emptyTextFile
      ⟨Token.startElement "group" [("id", "7")], tokensOutOfOrder.drop 3, []⟩
      = (false, emptyTextFile,
          ⟨Token.startElement "string" [("id", "3")],
           [Token.characters "c", Token.endElement "string", Token.endElement "group",
            Token.endElement "strings", Token.endDocument],
           ["Strings in group 7 are not ordered properly"]⟩) := by
    simp only [readGroup, Token.attributes, show hasAttribute [("id", "7")] "id" = true
      from by decide, Bool.not_true, Bool.false_eq_true, if_false,
      show attributeValue [("id", "7")] "id" = "7" from by decide,
      show qToInt "7" = some 7 from by decide, h3loop]
  have h4 : readFileLoop emptyTextFile ⟨Token.startElement "strings" [],
      tokensOutOfOrder.drop 2, []⟩
      = (false, emptyTextFile,
          ⟨Token.startElement "string" [("id", "3")],
           [Token.characters "c", Token.endElement "string", Token.endElement "group",
            Token.endElement "strings", Token.endDocument],
           ["Strings in group 7 are not ordered properly"]⟩) :=
    readFileLoop_group_false _ _ _ _ _ h2 h3
  have ha : applyRootAttributes emptyTextFile
      (Token.startElement "strings" []).attributes = emptyTextFile := by
    simp [applyRootAttributes, Token.attributes, hasAttribute]
  unfold read readFile
  simp only [h1, ha, h4]

/-- C4: a parsed string id must equal the number of strings already added to
the group — a mismatch fails the read with the not-ordered-properly error
naming the group id; consequently string ids 0,1,3 are rejected with that
error while ids 0,1,2 parse successfully. -/
theorem c4_sequential_index_enforcement :
    (∀ (gid : Int) (g : TextGroup) (s s₁ : St) (textId : Int),
      readOpenTag "string" s = (true, s₁) →
      qToInt (attributeValue s₁.cur.attributes "id") = some textId →
      textId ≠ g.size →
      readGroupLoop gid g s = (false, g,
        logError s₁ ("Strings in group " ++ intToString gid ++ " are not ordered properly")))
    ∧ (read emptyTextFile tokensOutOfOrder).1 = false
    ∧ (read emptyTextFile tokensOutOfOrder).2.2.log
        = ["Strings in group 7 are not ordered properly"]
    ∧ (read emptyTextFile tokensInOrder).1 = true
    ∧ (read emptyTextFile tokensInOrder).2.1.groups = [⟨7, ["a", "b", "c"]⟩] := by
  refine ⟨?_, ?_, ?_, ?_, ?_⟩
  · intro gid g s s₁ textId h hq hne
    rw [readGroupLoop_order gid g s s₁ textId h hq hne, qarg_msg_order]
  · rw [read_tokensOutOfOrder]
  · rw [read_tokensOutOfOrder]
  · rw [show tokensInOrder = writeTokens ⟨"x", true, [⟨7, ["a", "b", "c"]⟩]⟩ from by decide,
      read_writeTokens]
  · rw [show tokensInOrder = writeTokens ⟨"x", true, [⟨7, ["a", "b", "c"]⟩]⟩ from by decide,
      read_writeTokens]

/-- C4 (witness): the mismatch conjunct at a concrete state: a string with id
5 inside an empty group 7 fails with the error naming group 7. -/
theorem c4_sequential_index_enforcement_witness :
    readGroupLoop 7 ⟨7, []⟩ ⟨Token.noToken,
      [Token.startElement "string" [("id", "5")], Token.endElement "string"], []⟩
      = (false, ⟨7, []⟩,
          logError ⟨Token.startElement "string" [("id", "5")], [Token.endElement "string"], []⟩
            ("Strings in group " ++ intToString 7 ++ " are not ordered properly")) :=
  c4_sequential_index_enforcement.1 7 ⟨7, []⟩ _ _ 5
    (by simp [readOpenTag, readOpenTagAux, isStartElementNamed])
    (by simp [Token.attributes, attributeValue]; decide)
    (by decide)

/-- Token stream whose second group lacks the id attribute, after a complete
first group and a name attribute on the root. -/
def tokensPartialGroup : List Token :=
  [Token.startDocument, Token.startElement "strings" [("name", "x")],
   Token.startElement "group" [("id", "0")], Token.endElement "group",
   Token.startElement "group" [], Token.endElement "group",
   Token.endElement "strings", Token.endDocument]

set_option maxHeartbeats 1000000 in
/-- Reading the partial-group stream fails after the first group was already
appended and the name attribute copied. -/
theorem read_tokensPartialGroup :
    read emptyTextFile tokensPartialGroup
      = (false, ⟨"x", true, [⟨0, []⟩]⟩,
          ⟨Token.startElement "group" [],
           [Token.endElement "group", Token.endElement "strings", Token.endDocument],
           ["Group does not have an ID attribute"]⟩) := by
  have h1 : readOpenTag "strings" ⟨Token.noToken, tokensPartialGroup, []⟩
      = (true, ⟨Token.startElement "strings" [("name", "x")], tokensPartialGroup.drop 2, []⟩) := by
    simp [readOpenTag, readOpenTagAux, isStartElementNamed, tokensPartialGroup]
  have ha : applyRootAttributes emptyTextFile
      (Token.startElement "strings" [("name", "x")]).attributes = ⟨"x", true, []⟩ := by
    simp [applyRootAttributes, Token.attributes, hasAttribute, attributeValue, emptyTextFile]
  have h2 : readOpenTag "group"
      ⟨Token.startElement "strings" [("name", "x")], tokensPartialGroup.drop 2, []⟩
      = (true, ⟨Token.startElement "group" [("id", "0")], tokensPartialGroup.drop 3, []⟩) := by
    simp [readOpenTag, readOpenTagAux, isStartElementNamed, tokensPartialGroup]
  have h3 : readGroup ⟨"x", true, []⟩
      ⟨Token.startElement "group" [("id", "0")], tokensPartialGroup.drop 3, []⟩
      = (true, ⟨"x", true, [⟨0, []⟩]⟩,
          ⟨Token.endElement "group", tokensPartialGroup.drop 4, []⟩) := by
    simp [readGroup, readGroupLoop, readOpenTag, readOpenTagAux, isStartElementNamed,
      Token.attributes, hasAttribute, attributeValue, tokensPartialGroup,
      show qToInt "0" = some 0 from by decide]
  have h4 : readCloseTag "group" ⟨Token.endElement "group", tokensPartialGroup.drop 4, []⟩
      = (true, ⟨Token.endElement "group", tokensPartialGroup.drop 4, []⟩) := by
    simp [readCloseTag, isEndElementNamed]
  have h5 : readOpenTag "group" ⟨Token.endElement "group", tokensPartialGroup.drop 4, []⟩
      = (true, ⟨Token.startElement "group" [], tokensPartialGroup.drop 5, []⟩) := by
    simp [readOpenTag, readOpenTagAux, isStartElementNamed, tokensPartialGroup]
  have h6 : readGroup ⟨"x", true, [⟨0, []⟩]⟩
      ⟨Token.startElement "group" [], tokensPartialGroup.drop 5, []⟩
      = (false, ⟨"x", true, [⟨0, []⟩]⟩,
          logError ⟨Token.startElement "group" [], tokensPartialGroup.drop 5, []⟩
            "Group does not have an ID attribute") := by
    simp [readGroup, Token.attributes, hasAttribute]
  have hloop : readFileLoop ⟨"x", true, []⟩
      ⟨Token.startElement "strings" [("name", "x")], tokensPartialGroup.drop 2, []⟩
      = (false, ⟨"x", true, [⟨0, []⟩]⟩,
          logError ⟨Token.startElement "group" [], tokensPartialGroup.drop 5, []⟩
            "Group does not have an ID attribute") := by
    rw [readFileLoop_step _ _ _ _ _ _ h2 h3 h4, readFileLoop_group_false _ _ _ _ _ h5 h6]
  unfold read readFile
  simp only [h1, ha, hloop]
  simp [logError, tokensPartialGroup]

/-- C5 (counterexample): after a mid-parse failure the document passed to
read does hold content taken from the rejected input — the name and the
fully-parsed first group — so read does leave a partial document behind. -/
theorem c5_counterexample :
    (read emptyTextFile tokensPartialGroup).1 = false
    ∧ (read emptyTextFile tokensPartialGroup).2.1.name = "x"
    ∧ (read emptyTextFile tokensPartialGroup).2.1.groups = [⟨0, []⟩] := by
  rw [read_tokensPartialGroup]
  exact ⟨rfl, rfl, rfl⟩

/-- C5 (amended): callers must not trust the document after a failure — the
document keeps attributes and groups parsed before the error; only when the
failure comes before the root strings element is found (such as for input
with root foo) is the passed document returned untouched, with the
root-not-found error logged. -/
theorem c5_no_root_leaves_document_untouched (file : TextFile) (tokens : List Token)
    (s' : St) (h : readOpenTag "strings" ⟨Token.noToken, tokens, []⟩ = (false, s')) :
    read file tokens = (false, file, logError s' "Unable to find root <strings> element") := by
  unfold read readFile
  split
  · rename_i s₁ heq
    rw [h] at heq
    simp only [Prod.mk.injEq, true_and] at heq
    rw [heq]
  · rename_i s₁ heq
    rw [h] at heq
    simp at heq

/-- C5 (witness): a document with existing content passes through read of a
rootless input unchanged. -/
theorem c5_no_root_leaves_document_untouched_witness :
    read ⟨"n", false, [⟨1, ["z"]⟩]⟩
      [Token.startDocument, Token.startElement "foo" [], Token.endElement "foo",
       Token.endDocument]
      = (false, ⟨"n", false, [⟨1, ["z"]⟩]⟩,
          logError ⟨Token.startElement "foo" [],
            [Token.endElement "foo", Token.endDocument],
            [qarg2 "Invalid XML: expected tag <%1>, got <%2>" "strings" "foo"]⟩
            "Unable to find root <strings> element") :=
  c5_no_root_leaves_document_untouched ⟨"n", false, [⟨1, ["z"]⟩]⟩ _ _
    (by simp [readOpenTag, readOpenTagAux, isStartElementNamed])

/-- C6 (code bug): on an invalid token the open-tag search fails and logs,
for every tokenizer message, the same unsubstituted string "Invalid XML: %s":
because %s is not a Qt place marker, QString::arg drops the tokenizer's
message instead of carrying it as the spec intends. -/
theorem c6_invalid_token_message_drops_tokenizer_text (msg : String) :
    readOpenTag "strings" ⟨Token.noToken, [Token.invalid msg], []⟩
      = (false, ⟨Token.invalid msg, [], ["Invalid XML: %s"]⟩) := by
  simp [readOpenTag, readOpenTagAux, isStartElementNamed, qarg_msg_invalid]

/-- C7: for every parsed document the indexWithCounts flag is false exactly
when the attribute is present on the root element with the literal value
false, and true when it is absent or has any other value (the fresh
document's default being true). -/
theorem c7_index_with_counts_flag (a : List (String × String)) (more : List Token) :
    (read emptyTextFile
        (Token.startDocument :: Token.startElement "strings" a :: more)).2.1.indexWithCounts
      = !(hasAttribute a "indexWithCounts" && (attributeValue a "indexWithCounts" == "false")) := by
  unfold read readFile
  have h1 : readOpenTag "strings"
      ⟨Token.noToken, Token.startDocument :: Token.startElement "strings" a :: more, []⟩
      = (true, ⟨Token.startElement "strings" a, more, []⟩) := by
    simp [readOpenTag, readOpenTagAux, isStartElementNamed]
  simp only [h1]
  have hflag : (applyRootAttributes emptyTextFile
      (Token.startElement "strings" a).attributes).indexWithCounts
      = !(hasAttribute a "indexWithCounts" && (attributeValue a "indexWithCounts" == "false")) := by
    by_cases h : hasAttribute a "indexWithCounts" = true
    · simp [applyRootAttributes, Token.attributes, h]
    · have h' : hasAttribute a "indexWithCounts" = false := by simpa using h
      simp only [applyRootAttributes, Token.attributes, h', Bool.false_eq_true, if_false,
        Bool.false_and, Bool.not_false]
      split <;> rfl
  rcases hloop : readFileLoop (applyRootAttributes emptyTextFile
      (Token.startElement "strings" a).attributes) ⟨Token.startElement "strings" a, more, []⟩
    with ⟨b, f₃, s₂⟩
  have hmeta := (readFileLoop_meta (applyRootAttributes emptyTextFile
      (Token.startElement "strings" a).attributes) ⟨Token.startElement "strings" a, more, []⟩).1
  rw [hloop] at hmeta
  simp only at hmeta
  rw [← hflag, ← hmeta]
  cases b
  · simp only [hloop]
  · simp only [hloop]

/-- C8: the close-tag search succeeds at once on a matching current end
element; otherwise it advances to the first end element with the wanted name,
skipping every intervening token of any kind without failing on it; and when
no such end element remains it fails with the missing-close-tag error naming
the tag. -/
theorem c8_close_tag_scan (tag : String) (s : St) :
    (isEndElementNamed s.cur tag = true → readCloseTag tag s = (true, s))
    ∧ (∀ (pre post : List Token), isEndElementNamed s.cur tag = false →
        s.rest = pre ++ Token.endElement tag :: post →
        (∀ t ∈ pre, isEndElementNamed t tag = false) →
        readCloseTag tag s = (true, ⟨Token.endElement tag, post, s.log⟩))
    ∧ (isEndElementNamed s.cur tag = false →
        (∀ t ∈ s.rest, isEndElementNamed t tag = false) →
        (readCloseTag tag s).1 = false
          ∧ ((readCloseTag tag s).2).log
              = s.log ++ ["Invalid XML: end element </" ++ tag ++ "> not found"]) := by
  refine ⟨?_, ?_, ?_⟩
  · intro h
    unfold readCloseTag
    rw [h]
    simp
  · intro pre post him hrest hall
    unfold readCloseTag
    rw [him]
    simp only [Bool.false_eq_true, if_false]
    rw [hrest]
    exact readCloseTagAux_found tag pre s.cur post s.log hall
  · intro him hall
    unfold readCloseTag
    rw [him]
    simp only [Bool.false_eq_true, if_false]
    rcases haux : readCloseTagAux tag s.cur s.rest s.log with ⟨b2, s2⟩
    have hb2 : b2 = false := by
      have := readCloseTagAux_none tag s.rest s.cur s.log hall
      rw [haux] at this
      exact this
    subst hb2
    have hlog := readCloseTagAux_false_log tag s.rest s.cur s.log s2 haux
    exact ⟨rfl, by rw [show ((false, s2) : Bool × St).2 = s2 from rfl, hlog, qarg_msg_close]⟩

/-- C8 (witness): the three outcomes at concrete inputs. -/
theorem c8_close_tag_scan_witness :
    readCloseTag "group" ⟨Token.endElement "group", [Token.endDocument], ["p"]⟩
      = (true, ⟨Token.endElement "group", [Token.endDocument], ["p"]⟩)
    ∧ readCloseTag "group" ⟨Token.noToken,
        [Token.startElement "x" [], Token.endElement "x", Token.endElement "group",
         Token.endDocument], []⟩
      = (true, ⟨Token.endElement "group", [Token.endDocument], []⟩)
    ∧ ((readCloseTag "group" ⟨Token.noToken, [Token.startElement "x" []], []⟩).1 = false
        ∧ ((readCloseTag "group" ⟨Token.noToken, [Token.startElement "x" []], []⟩).2).log
            = [] ++ ["Invalid XML: end element </" ++ "group" ++ "> not found"]) :=
  ⟨(c8_close_tag_scan "group" _).1 (by decide),
   (c8_close_tag_scan "group" _).2.1 [Token.startElement "x" [], Token.endElement "x"]
     [Token.endDocument] (by decide) rfl (by decide),
   (c8_close_tag_scan "group" _).2.2 (by decide) (by decide)⟩

/-- Token stream of a single empty group with id -1. -/
def tokensNegativeGroupId : List Token :=
  [Token.startDocument, Token.startElement "strings" [],
   Token.startElement "group" [("id", "-1")], Token.endElement "group",
   Token.endElement "strings", Token.endDocument]

set_option maxHeartbeats 1000000 in
/-- Reading the negative-id stream succeeds and stores the group with id -1. -/
theorem read_tokensNegativeGroupId :
    read emptyTextFile tokensNegativeGroupId
      = (true, ⟨"", true, [⟨-1, []⟩]⟩,
          ⟨Token.endElement "strings", [Token.endDocument], []⟩) := by
  have h1 : readOpenTag "strings" ⟨Token.noToken, tokensNegativeGroupId, []⟩
      = (true, ⟨Token.startElement "strings" [], tokensNegativeGroupId.drop 2, []⟩) := by
    simp [readOpenTag, readOpenTagAux, isStartElementNamed, tokensNegativeGroupId]
  have ha : applyRootAttributes emptyTextFile
      (Token.startElement "strings" []).attributes = emptyTextFile := by
    simp [applyRootAttributes, Token.attributes, hasAttribute]
  have h2 : readOpenTag "group"
      ⟨Token.startElement "strings" [], tokensNegativeGroupId.drop 2, []⟩
      = (true, ⟨Token.startElement "group" [("id", "-1")], tokensNegativeGroupId.drop 3, []⟩) := by
    simp [readOpenTag, readOpenTagAux, isStartElementNamed, tokensNegativeGroupId]
  have h3 : readGroup emptyTextFile
      ⟨Token.startElement "group" [("id", "-1")], tokensNegativeGroupId.drop 3, []⟩
      = (true, ⟨"", true, [⟨-1, []⟩]⟩,
          ⟨Token.endElement "group", tokensNegativeGroupId.drop 4, []⟩) := by
    simp [readGroup, readGroupLoop, readOpenTag, readOpenTagAux, isStartElementNamed,
      Token.attributes, hasAttribute, attributeValue, emptyTextFile, tokensNegativeGroupId,
      show qToInt "-1" = some (-1) from by decide]
  have h4 : readCloseTag "group" ⟨Token.endElement "group", tokensNegativeGroupId.drop 4, []⟩
      = (true, ⟨Token.endElement "group", tokensNegativeGroupId.drop 4, []⟩) := by
    simp [readCloseTag, isEndElementNamed]
  have h5 : readOpenTag "group" ⟨Token.endElement "group", tokensNegativeGroupId.drop 4, []⟩
      = (false, ⟨Token.endElement "strings", [Token.endDocument], []⟩) := by
    simp [readOpenTag, readOpenTagAux, isStartElementNamed, tokensNegativeGroupId]
  have hloop : readFileLoop emptyTextFile
      ⟨Token.startElement "strings" [], tokensNegativeGroupId.drop 2, []⟩
      = (true, ⟨"", true, [⟨-1, []⟩]⟩,
          ⟨Token.endElement "strings", [Token.endDocument], []⟩) := by
    rw [readFileLoop_step _ _ _ _ _ _ h2 h3 h4, readFileLoop_open_false _ _ _ h5]
  unfold read readFile
  simp only [h1, ha, hloop]
  simp [readCloseTag, isEndElementNamed]

/-- C9 (counterexample): a group id that parses to a negative integer is
accepted: read succeeds and stores the group with id -1, so the accepted id
is not restricted to non-negative integers. -/
theorem c9_counterexample :
    (read emptyTextFile tokensNegativeGroupId).1 = true
    ∧ (read emptyTextFile tokensNegativeGroupId).2.1.groups = [⟨-1, []⟩] := by
  rw [read_tokensNegativeGroupId]
  exact ⟨rfl, rfl⟩

/-- C9 (amended): the group id attribute must be present — absence is a hard
error with the message "Group does not have an ID attribute" — and must parse
as an integer, a non-integer value being a hard error naming the offending
string; any parsed integer, negative ones included, is accepted. -/
theorem c9_group_id_attribute_checks :
    (∀ (file : TextFile) (s : St), hasAttribute s.cur.attributes "id" = false →
      readGroup file s = (false, file, logError s "Group does not have an ID attribute"))
    ∧ (∀ (file : TextFile) (s : St), hasAttribute s.cur.attributes "id" = true →
        qToInt (attributeValue s.cur.attributes "id") = none →
        readGroup file s = (false, file,
          logError s ("Group ID is not an integer: " ++ attributeValue s.cur.attributes "id"))) := by
  constructor
  · intro file s h
    unfold readGroup
    rw [h]
    simp
  · intro file s hattr hq
    unfold readGroup
    rw [hattr]
    simp only [Bool.not_true, Bool.false_eq_true, if_false, hq, qarg_msg_group_int]

/-- C9 (witness): both hard errors at concrete states. -/
theorem c9_group_id_attribute_checks_witness :
    readGroup emptyTextFile ⟨Token.startElement "group" [], [], []⟩
      = (false, emptyTextFile, logError ⟨Token.startElement "group" [], [], []⟩
          "Group does not have an ID attribute")
    ∧ readGroup emptyTextFile ⟨Token.startElement "group" [("id", "x7")], [], []⟩
      = (false, emptyTextFile, logError ⟨Token.startElement "group" [("id", "x7")], [], []⟩
          ("Group ID is not an integer: "
            ++ attributeValue (Token.startElement "group" [("id", "x7")]).attributes "id")) :=
  ⟨c9_group_id_attribute_checks.1 emptyTextFile _ (by decide),
   c9_group_id_attribute_checks.2 emptyTextFile _ (by decide) (by decide)⟩

/-- C10: a string element without an id attribute fails the read through the
integer-parse path — the absent attribute reads as the empty string, which
fails integer parsing, so the logged message is the invalid-integer one
applied to the empty value, not a distinct missing-attribute error. -/
theorem c10_string_id_missing_attribute (gid : Int) (g : TextGroup) (s s₁ : St)
    (h : readOpenTag "string" s = (true, s₁))
    (hattr : hasAttribute s₁.cur.attributes "id" = false) :
    readGroupLoop gid g s = (false, g, logError s₁ "String ID is not an integer: ") := by
  have hval := attributeValue_absent s₁.cur.attributes "id" hattr
  have hq : qToInt (attributeValue s₁.cur.attributes "id") = none := by
    rw [hval]
    rfl
  rw [readGroupLoop_id_none gid g s s₁ h hq, hval]
  rw [show qarg "String ID is not an integer: %1" ""
    = "String ID is not an integer: " from by decide]

/-- C10 (witness): a string element with no attributes at all fails with the
invalid-integer message applied to the empty value. -/
theorem c10_string_id_missing_attribute_witness :
    readGroupLoop 0 ⟨0, []⟩ ⟨Token.noToken,
      [Token.startElement "string" [], Token.endElement "string"], []⟩
      = (false, ⟨0, []⟩,
          logError ⟨Token.startElement "string" [], [Token.endElement "string"], []⟩
            "String ID is not an integer: ") :=
  c10_string_id_missing_attribute 0 ⟨0, []⟩ _ _
    (by simp [readOpenTag, readOpenTagAux, isStartElementNamed]) (by decide)

end TextFileXmlStream
